import Mathlib

/-!
Verification of the isometric-city traffic/transit simulation core.

The data model and operations below are shallow embeddings of the
TypeScript sources (roadNetwork.ts, trainSystem.ts, useAircraft.ts, the
traffic/car/pedestrian/vehicle systems).  JavaScript numbers are modelled
as rationals (ℚ) for continuous quantities and integers (ℤ) for grid
coordinates; `Math.random()` is modelled as an explicit stream of rational
draws.  Functions whose source file is not part of the repository snapshot
(the shared `utils` module, `gridFinders`, `constants`) are modelled from
the specification and marked as such in their doc comments.
-/

namespace IsoCity

/-- Building descriptor of a tile: `type` (enumerated variant, kept as the
source's string tags such as "road", "rail", "grass"), `powered` flag and
`population` count. -/
structure Building where
  type : String
  powered : Bool
  population : Nat
deriving Repr, DecidableEq

/-- A grid tile carrying its building descriptor. -/
structure Tile where
  building : Building
deriving Repr, DecidableEq

/-- The grid is an ordered matrix of tiles, indexed `grid[y][x]`. -/
abbrev Grid := List (List Tile)

/-- Building type found at `grid[y][x]`, if the indices are present. -/
def tileTypeAt (grid : Grid) (x y : Int) : Option String :=
  match grid.get? y.toNat with
  | some row =>
    match row.get? x.toNat with
    | some t => some t.building.type
    | none => none
  | none => none

/-- `isRoadTile` from roadNetwork.ts: out-of-bounds coordinates are
reported non-road, otherwise the tile's building type must be "road". -/
def isRoadTile (grid : Grid) (gridSize : Nat) (x y : Int) : Bool :=
  if x < 0 ∨ y < 0 ∨ x ≥ (gridSize : Int) ∨ y ≥ (gridSize : Int) then false
  else tileTypeAt grid x y == some "road"

/-- Modelled from the spec: `isRailTile` lives in the shared `utils`
module which is absent from the snapshot; per the spec the road and rail
surface predicates have the same shape, parameterized by the tile kind. -/
def isRailTile (grid : Grid) (gridSize : Nat) (x y : Int) : Bool :=
  if x < 0 ∨ y < 0 ∨ x ≥ (gridSize : Int) ∨ y ≥ (gridSize : Int) then false
  else tileTypeAt grid x y == some "rail"

/-- The four cardinal directions used by grid-locked agents. -/
inductive CarDirection
  | north
  | east
  | south
  | west
deriving Repr, DecidableEq

/-- Coordinate step of one cell in a direction.  The convention is fixed
by `analyzeRoad`/`analyzeRoadNetwork` in the sources: the "north"
neighbour of `(x, y)` is `(x-1, y)`, "east" is `(x, y-1)`, "south" is
`(x+1, y)` and "west" is `(x, y+1)`. -/
def dirStep : CarDirection → Int × Int
  | .north => (-1, 0)
  | .east => (0, -1)
  | .south => (1, 0)
  | .west => (0, 1)

/-- Modelled from the spec: `getOppositeDirection` (shared `utils`
module, absent): reversal pairs north/south and east/west. -/
def getOppositeDirection : CarDirection → CarDirection
  | .north => .south
  | .east => .west
  | .south => .north
  | .west => .east

/-- Modelled from the spec: `getDirectionToTile` (shared `utils` module,
absent): the cardinal direction leading from one tile to a grid-adjacent
tile, or none when the tiles are not one cardinal step apart. -/
def getDirectionToTile (fromX fromY toX toY : Int) : Option CarDirection :=
  if toX = fromX - 1 ∧ toY = fromY then some .north
  else if toX = fromX ∧ toY = fromY - 1 then some .east
  else if toX = fromX + 1 ∧ toY = fromY then some .south
  else if toX = fromX ∧ toY = fromY + 1 then some .west
  else none

/-- Modelled from the spec: `getDirectionOptions` (shared `utils` module,
absent): the directions whose neighbouring tile is a road tile. -/
def getDirectionOptions (grid : Grid) (gridSize : Nat) (x y : Int) :
    List CarDirection :=
  [CarDirection.north, .east, .south, .west].filter fun d =>
    isRoadTile grid gridSize (x + (dirStep d).1) (y + (dirStep d).2)

/-- Modelled from the spec: `getRailDirectionOptions` (shared `utils`
module, absent): the directions whose neighbouring tile is a rail tile. -/
def getRailDirectionOptions (grid : Grid) (gridSize : Nat) (x y : Int) :
    List CarDirection :=
  [CarDirection.north, .east, .south, .west].filter fun d =>
    isRailTile grid gridSize (x + (dirStep d).1) (y + (dirStep d).2)

/-- JavaScript's `list[Math.floor(q * list.length)]` idiom: pick the
element indexed by `⌊q * length⌋`.  For `q` outside `[0, 1)` the access
would be out of range in the source; the model then keeps `dflt` (the
agent's current value), which is never exercised for genuine
`Math.random()` draws. -/
def pickRandom {α : Type} (l : List α) (q : ℚ) (dflt : α) : α :=
  match l.get? (Int.toNat ⌊q * (l.length : ℚ)⌋) with
  | some a => a
  | none => dflt

end IsoCity

namespace IsoCity

/-! ## roadNetwork.ts : road network analysis -/

/-- Intersection classification from roadNetwork.ts. -/
inductive IntersectionType
  | T
  | cross
  | corner
  | straight
  | dead_end
deriving Repr, DecidableEq

/-- `RoadNetworkInfo` from roadNetwork.ts. -/
structure RoadNetworkInfo where
  north : Bool
  east : Bool
  south : Bool
  west : Bool
  northParallel : Nat
  eastParallel : Nat
  southParallel : Nat
  westParallel : Nat
  isWideRoad : Bool
  laneCount : Nat
  isIntersection : Bool
  intersectionType : IntersectionType
  needsTrafficLight : Bool
deriving Repr, DecidableEq

/-- `analyzeRoadNetwork` from roadNetwork.ts, translated clause by
clause. -/
def analyzeRoadNetwork (grid : Grid) (gridSize : Nat) (x y : Int) :
    RoadNetworkInfo :=
  let north := isRoadTile grid gridSize (x - 1) y
  let east := isRoadTile grid gridSize x (y - 1)
  let south := isRoadTile grid gridSize (x + 1) y
  let west := isRoadTile grid gridSize x (y + 1)
  let eastParallel : Nat :=
    if (north || south) ∧ isRoadTile grid gridSize (x + 1) y ∧
        (isRoadTile grid gridSize (x + 1 - 1) y ∨
         isRoadTile grid gridSize (x + 1 + 1) y) then 1 else 0
  let westParallel : Nat :=
    if (north || south) ∧ isRoadTile grid gridSize (x - 1) y ∧
        (isRoadTile grid gridSize (x - 1 - 1) y ∨
         isRoadTile grid gridSize (x - 1 + 1) y) then 1 else 0
  let northParallel : Nat :=
    if (east || west) ∧ isRoadTile grid gridSize x (y - 1) ∧
        (isRoadTile grid gridSize x (y - 1 - 1) ∨
         isRoadTile grid gridSize x (y - 1 + 1)) then 1 else 0
  let southParallel : Nat :=
    if (east || west) ∧ isRoadTile grid gridSize x (y + 1) ∧
        (isRoadTile grid gridSize x (y + 1 - 1) ∨
         isRoadTile grid gridSize x (y + 1 + 1)) then 1 else 0
  let connectionCount := [north, east, south, west].countP (· = true)
  let intersectionType : IntersectionType :=
    if connectionCount = 4 then .cross
    else if connectionCount = 3 then .T
    else if connectionCount = 2 then
      if (north && south) || (east && west) then .straight else .corner
    else .dead_end
  let isWideRoad :=
    northParallel > 0 ∨ eastParallel > 0 ∨ southParallel > 0 ∨
      westParallel > 0
  let laneCount : Nat :=
    if isWideRoad then
      if connectionCount = 4 then 4
      else if connectionCount ≥ 3 then 3
      else 2
    else if connectionCount ≥ 3 then 2
    else 1
  { north := north
    east := east
    south := south
    west := west
    northParallel := northParallel
    eastParallel := eastParallel
    southParallel := southParallel
    westParallel := westParallel
    isWideRoad := isWideRoad
    laneCount := laneCount
    isIntersection := connectionCount ≥ 3
    intersectionType := intersectionType
    needsTrafficLight := connectionCount ≥ 3 }

end IsoCity

namespace IsoCity

/-- The four road-adjacency booleans of a tile, in source order
north/east/south/west. -/
def adjacencyBools (grid : Grid) (gridSize : Nat) (x y : Int) :
    Bool × Bool × Bool × Bool :=
  (isRoadTile grid gridSize (x - 1) y,
   isRoadTile grid gridSize x (y - 1),
   isRoadTile grid gridSize (x + 1) y,
   isRoadTile grid gridSize x (y + 1))

/-- Classification characterisation used to settle the intersection-type
claim, phrased over the four adjacency booleans. -/
theorem analyzeRoadNetwork_classification_core (grid : Grid)
    (gridSize : Nat) (x y : Int) :
    let info := analyzeRoadNetwork grid gridSize x y
    let c := [info.north, info.east, info.south, info.west].countP (· = true)
    (c = 4 → info.intersectionType = .cross) ∧
    (c = 3 → info.intersectionType = .T) ∧
    (c = 2 → ((info.north ∧ info.south) ∨ (info.east ∧ info.west) →
        info.intersectionType = .straight)) ∧
    (c = 2 → (¬((info.north ∧ info.south) ∨ (info.east ∧ info.west)) →
        info.intersectionType = .corner)) ∧
    (c ≤ 1 → info.intersectionType = .dead_end) := by
  simp only [analyzeRoadNetwork]
  generalize isRoadTile grid gridSize (x - 1) y = bn
  generalize isRoadTile grid gridSize x (y - 1) = be
  generalize isRoadTile grid gridSize (x + 1) y = bs
  generalize isRoadTile grid gridSize x (y + 1) = bw
  cases bn <;> cases be <;> cases bs <;> cases bw <;> decide

/-- C2: for every in-bounds tile, the intersection classification
returned by `analyzeRoadNetwork` is determined by the four cardinal
road-adjacency booleans: 4 connections classify as `cross`, 3 as `T`,
2 opposite as `straight`, 2 adjacent as `corner`, and 0 or 1 as
`dead_end`. -/
theorem intersection_classification (grid : Grid) (gridSize : Nat)
    (x y : Int) (hx : 0 ≤ x ∧ x < (gridSize : Int))
    (hy : 0 ≤ y ∧ y < (gridSize : Int)) :
    let info := analyzeRoadNetwork grid gridSize x y
    let c := [info.north, info.east, info.south, info.west].countP (· = true)
    (c = 4 → info.intersectionType = .cross) ∧
    (c = 3 → info.intersectionType = .T) ∧
    (c = 2 → ((info.north ∧ info.south) ∨ (info.east ∧ info.west) →
        info.intersectionType = .straight)) ∧
    (c = 2 → (¬((info.north ∧ info.south) ∨ (info.east ∧ info.west)) →
        info.intersectionType = .corner)) ∧
    (c ≤ 1 → info.intersectionType = .dead_end) :=
  analyzeRoadNetwork_classification_core grid gridSize x y

/-- Witness for the classification theorem: a concrete 3×3 grid whose
centre has all four road neighbours classifies as a cross. -/
def roadB : Tile := ⟨⟨"road", false, 0⟩⟩

def grassB : Tile := ⟨⟨"grass", false, 0⟩⟩

/-- A 3×3 plus-shaped road grid. -/
def plusGrid : Grid :=
  [[grassB, roadB, grassB],
   [roadB, roadB, roadB],
   [grassB, roadB, grassB]]

theorem intersection_classification_witness :
    ((0 : Int) ≤ 1 ∧ (1 : Int) < (3 : Nat)) ∧
    (analyzeRoadNetwork plusGrid 3 1 1).intersectionType = .cross := by
  refine ⟨by decide, ?_⟩
  have h := intersection_classification plusGrid 3 1 1 (by decide) (by decide)
  exact h.1 (by decide)

end IsoCity

namespace IsoCity

/-! ## roadNetwork.ts second half : per-intersection traffic light quad -/

/-- Colour of one signal head. -/
inductive LightColor
  | red
  | yellow
  | green
deriving Repr, DecidableEq

/-- `TrafficLightState` from the traffic-light half of roadNetwork.ts:
one colour per controlled direction plus the cycle timer and phase. -/
structure TrafficLightState where
  north : LightColor
  east : LightColor
  south : LightColor
  west : LightColor
  timer : ℚ
  phase : Nat
deriving Repr, DecidableEq

/-- `createTrafficLightState`: all red, then the initial green pair by
intersection type. -/
def createTrafficLightState (networkInfo : RoadNetworkInfo) :
    TrafficLightState :=
  let st : TrafficLightState :=
    { north := .red, east := .red, south := .red, west := .red,
      timer := 0, phase := 0 }
  if networkInfo.intersectionType = .cross then
    { st with north := .green, south := .green, east := .red, west := .red }
  else if networkInfo.intersectionType = .T then
    if networkInfo.north ∧ networkInfo.south then
      { st with north := .green, south := .green }
    else if networkInfo.east ∧ networkInfo.west then
      { st with east := .green, west := .green }
    else st
  else st

/-- JavaScript number truncation toward zero (used by the `%`
operator). -/
def jsTrunc (q : ℚ) : Int := if 0 ≤ q then ⌊q⌋ else ⌈q⌉

/-- JavaScript's remainder operator on numbers:
`a % b = a - b * trunc(a / b)`. -/
def jsMod (a b : ℚ) : ℚ := a - b * (jsTrunc (a / b) : ℚ)

/-- `updateTrafficLightState` from roadNetwork.ts: advance the timer and
recompute the four heads from the cycle position. -/
def updateTrafficLightState (state : TrafficLightState)
    (networkInfo : RoadNetworkInfo) (deltaTime : ℚ) : TrafficLightState :=
  let state := { state with timer := state.timer + deltaTime }
  let greenTime : ℚ := 5
  let yellowTime : ℚ := 3 / 2
  let redTime : ℚ := 1 / 2
  let cycleTime : ℚ := greenTime + yellowTime + redTime
  let cyclePosition := jsMod state.timer (cycleTime * 2) / cycleTime
  if networkInfo.intersectionType = .cross then
    if cyclePosition < 1 then
      let ns : LightColor :=
        if cyclePosition < greenTime / cycleTime then .green
        else if cyclePosition < (greenTime + yellowTime) / cycleTime then
          .yellow
        else .red
      { state with north := ns, south := ns, east := .red, west := .red }
    else
      let phase2Pos := cyclePosition - 1
      let ew : LightColor :=
        if phase2Pos < greenTime / cycleTime then .green
        else if phase2Pos < (greenTime + yellowTime) / cycleTime then .yellow
        else .red
      { state with east := ew, west := ew, north := .red, south := .red }
  else if networkInfo.intersectionType = .T then
    if networkInfo.north ∧ networkInfo.south then
      let ns : LightColor :=
        if cyclePosition < greenTime / cycleTime then .green
        else if cyclePosition < (greenTime + yellowTime) / cycleTime then
          .yellow
        else .red
      let ew : LightColor := if ns = .green then .red else .green
      { state with north := ns, south := ns, east := ew, west := ew }
    else if networkInfo.east ∧ networkInfo.west then
      let ew : LightColor :=
        if cyclePosition < greenTime / cycleTime then .green
        else if cyclePosition < (greenTime + yellowTime) / cycleTime then
          .yellow
        else .red
      let ns : LightColor := if ew = .green then .red else .green
      { state with east := ew, west := ew, north := ns, south := ns }
    else state
  else state

end IsoCity

namespace IsoCity

/-! ## part_006 : traffic system (road analysis, lights, trains) -/

/-- `RoadType` from the part_006 traffic system. -/
inductive RoadType
  | single
  | avenue
  | highway
deriving Repr, DecidableEq

/-- Adjacency booleans record used by `RoadAnalysis`. -/
structure DirFlags where
  north : Bool
  east : Bool
  south : Bool
  west : Bool
deriving Repr, DecidableEq

/-- `RoadAnalysis` from the part_006 traffic system. -/
structure RoadAnalysis where
  type : RoadType
  lanes : Nat
  hasCentralDivider : Bool
  hasTurnLanes : Bool
  directions : DirFlags
  adjacentRoads : DirFlags
  parallelHorizontal : Nat
  parallelVertical : Nat
deriving Repr, DecidableEq

/-- The `hasRoad` closure of `analyzeRoad`: bounds-checked road test,
identical to `isRoadTile`. -/
def hasRoadP6 (grid : Grid) (gridSize : Nat) (gx gy : Int) : Bool :=
  isRoadTile grid gridSize gx gy

/-- A streak loop of `analyzeRoad`: the source walks at most four steps
away from the tile and stops at the first non-road position (going out of
bounds reads as non-road), which is exactly this nested conditional. -/
def roadStreak (check : Int → Bool) : Nat :=
  if ¬check 1 then 0
  else if ¬check 2 then 1
  else if ¬check 3 then 2
  else if ¬check 4 then 3
  else 4

/-- `analyzeRoad` from the part_006 traffic system. -/
def analyzeRoad (grid : Grid) (gridSize : Nat) (x y : Int) : RoadAnalysis :=
  let north := hasRoadP6 grid gridSize (x - 1) y
  let east := hasRoadP6 grid gridSize x (y - 1)
  let south := hasRoadP6 grid gridSize (x + 1) y
  let west := hasRoadP6 grid gridSize x (y + 1)
  let leftStreak := roadStreak fun k => hasRoadP6 grid gridSize (x - k) y
  let rightStreak := roadStreak fun k => hasRoadP6 grid gridSize (x + k) y
  let horizontalCount := 1 + leftStreak + rightStreak
  let upStreak := roadStreak fun k => hasRoadP6 grid gridSize x (y - k)
  let downStreak := roadStreak fun k => hasRoadP6 grid gridSize x (y + k)
  let verticalCount := 1 + upStreak + downStreak
  let isAvenue := horizontalCount ≥ 2 ∨ verticalCount ≥ 2
  let isHighway := horizontalCount ≥ 4 ∨ verticalCount ≥ 4
  let type : RoadType :=
    if isHighway then .highway else if isAvenue then .avenue else .single
  let lanes : Nat := if isHighway then 3 else if isAvenue then 2 else 1
  let hasCentralDivider :=
    if isHighway then true
    else if isAvenue then horizontalCount ≥ 3 ∨ verticalCount ≥ 3
    else false
  let hasTurnLanes :=
    if isHighway then true
    else if isAvenue then (north && south) || (east && west)
    else false
  { type := type
    lanes := lanes
    hasCentralDivider := hasCentralDivider
    hasTurnLanes := hasTurnLanes
    directions := ⟨north, east, south, west⟩
    adjacentRoads := ⟨north, east, south, west⟩
    parallelHorizontal := horizontalCount
    parallelVertical := verticalCount }

/-- An intersection record as produced by `findIntersections`. -/
structure IntersectionPt where
  x : Int
  y : Int
  directions : List CarDirection
deriving Repr, DecidableEq

/-- `findIntersections` from the part_006 traffic system: road tiles with
three or more connections, scanned row by row. -/
def findIntersections (grid : Grid) (gridSize : Nat) :
    List IntersectionPt :=
  (List.range gridSize).flatMap fun y =>
    (List.range gridSize).filterMap fun x =>
      if tileTypeAt grid (x : Int) (y : Int) ≠ some "road" then none
      else
        let a := analyzeRoad grid gridSize (x : Int) (y : Int)
        let connectionCount :=
          [a.directions.north, a.directions.east, a.directions.south,
            a.directions.west].countP (· = true)
        if connectionCount ≥ 3 then
          let dirs :=
            (if a.directions.north then [CarDirection.north] else []) ++
            (if a.directions.east then [CarDirection.east] else []) ++
            (if a.directions.south then [CarDirection.south] else []) ++
            (if a.directions.west then [CarDirection.west] else [])
          some ⟨(x : Int), (y : Int), dirs⟩
        else none

/-- `TrafficLight` from the part_006 traffic system: one light per
direction of an intersection. -/
structure TrafficLightP6 where
  x : Int
  y : Int
  state : LightColor
  direction : CarDirection
  timer : ℚ
  phase : Nat
deriving Repr, DecidableEq

/-- Timing constants of the part_006 traffic system, in seconds. -/
def trafficLightRedDuration : ℚ := 8

def trafficLightYellowDuration : ℚ := 2

def trafficLightGreenDuration : ℚ := 8

/-- Recursion of `initializeTrafficLights` over the intersections,
incrementing the phase per intersection (not per direction). -/
def initTrafficLightsFrom (phase : Nat) :
    List IntersectionPt → List TrafficLightP6
  | [] => []
  | i :: rest =>
    (i.directions.map fun d =>
      { x := i.x, y := i.y,
        state := if phase % 2 = 0 then .green else .red,
        direction := d,
        timer := if phase % 2 = 0 then trafficLightGreenDuration
          else trafficLightRedDuration,
        phase := phase }) ++ initTrafficLightsFrom (phase + 1) rest

/-- `initializeTrafficLights` from the part_006 traffic system: every
direction of an intersection receives a light carrying the
intersection's phase offset. -/
def initializeTrafficLights (intersections : List IntersectionPt) :
    List TrafficLightP6 :=
  initTrafficLightsFrom 0 intersections

/-- `updateTrafficLights` from the part_006 traffic system: each light
counts its timer down and cycles green → yellow → red → green. -/
def updateTrafficLights (lights : List TrafficLightP6) (deltaTime : ℚ) :
    List TrafficLightP6 :=
  lights.map fun light =>
    let newTimer := light.timer - deltaTime
    if newTimer ≤ 0 then
      match light.state with
      | .green =>
        { light with state := .yellow, timer := trafficLightYellowDuration }
      | .yellow =>
        { light with state := .red, timer := trafficLightRedDuration }
      | .red =>
        { light with state := .green, timer := trafficLightGreenDuration }
    else { light with timer := newTimer }

/-- `getTrafficLightState` from the part_006 traffic system. -/
def getTrafficLightState (lights : List TrafficLightP6) (x y : Int)
    (direction : CarDirection) : Option LightColor :=
  (lights.find? fun l =>
    l.x = x ∧ l.y = y ∧ l.direction = direction).map (·.state)

/-- Lights of the plus-shaped grid's 4-way intersection after one
update call with zero elapsed time. -/
def p6CrossLights : List TrafficLightP6 :=
  updateTrafficLights (initializeTrafficLights (findIntersections plusGrid 3)) 0

/-- Counterexample to the phase-exclusivity claim for the part_006
light controller: the plus grid's centre is a 4-way intersection, yet
after an update call all four of its lights — both the north/south pair
and the east/west pair — show green simultaneously, because every light
of an intersection carries the same phase offset. -/
theorem trafficLights_both_axes_green_p6 :
    findIntersections plusGrid 3 =
      [⟨1, 1, [CarDirection.north, .east, .south, .west]⟩] ∧
    getTrafficLightState p6CrossLights 1 1 .north = some .green ∧
    getTrafficLightState p6CrossLights 1 1 .south = some .green ∧
    getTrafficLightState p6CrossLights 1 1 .east = some .green ∧
    getTrafficLightState p6CrossLights 1 1 .west = some .green := by
  have hfi : findIntersections plusGrid 3 =
      [⟨1, 1, [CarDirection.north, .east, .south, .west]⟩] := by decide
  have hinit : initializeTrafficLights (findIntersections plusGrid 3) =
      [⟨1, 1, .green, .north, 8, 0⟩, ⟨1, 1, .green, .east, 8, 0⟩,
       ⟨1, 1, .green, .south, 8, 0⟩, ⟨1, 1, .green, .west, 8, 0⟩] := by
    rw [hfi]; rfl
  have h8 : ¬((8 : ℚ) - 0 ≤ 0) := by norm_num
  have hup : p6CrossLights =
      [⟨1, 1, .green, .north, 8 - 0, 0⟩, ⟨1, 1, .green, .east, 8 - 0, 0⟩,
       ⟨1, 1, .green, .south, 8 - 0, 0⟩, ⟨1, 1, .green, .west, 8 - 0, 0⟩] := by
    simp only [p6CrossLights]
    rw [hinit]
    simp only [updateTrafficLights, List.map_cons, List.map_nil, if_neg h8]
  exact ⟨hfi, by rw [hup]; rfl, by rw [hup]; rfl, by rw [hup]; rfl,
    by rw [hup]; rfl⟩

/-- C6 (amended): for the roadNetwork.ts quad controller at a `cross`
intersection, neither the initial state nor the state after any update
call ever has the north/south pair and the east/west pair green
simultaneously. -/
theorem cross_axes_never_both_green (st : TrafficLightState)
    (info : RoadNetworkInfo) (deltaTime : ℚ)
    (h : info.intersectionType = .cross) :
    (¬(((createTrafficLightState info).north = .green ∨
        (createTrafficLightState info).south = .green) ∧
       ((createTrafficLightState info).east = .green ∨
        (createTrafficLightState info).west = .green))) ∧
    (¬(((updateTrafficLightState st info deltaTime).north = .green ∨
        (updateTrafficLightState st info deltaTime).south = .green) ∧
       ((updateTrafficLightState st info deltaTime).east = .green ∨
        (updateTrafficLightState st info deltaTime).west = .green))) := by
  constructor
  · simp [createTrafficLightState, h]
  · simp only [updateTrafficLightState, h]
    split_ifs <;> simp

/-! ## part_006 train system : trains wandering on rails -/

/-- `Train` of the part_006 train system (the wandering multi-carriage
trains). -/
structure TrainP6 where
  id : Nat
  tileX : Int
  tileY : Int
  direction : CarDirection
  progress : ℚ
  speed : ℚ
  age : ℚ
  maxAge : ℚ
  ttype : String
  carriages : Nat
  color : String
  trackOffset : ℚ
deriving Repr, DecidableEq

/-- The 5×5 search offsets of the off-rail recovery scan, in source
order: `dx` from -2 to 2 outer, `dy` from -2 to 2 inner. -/
def searchOffsets : List (Int × Int) :=
  (List.range 5).flatMap fun i =>
    (List.range 5).map fun j => ((i : Int) - 2, (j : Int) - 2)

/-- The off-rail recovery scan of `updateTrains` (part_006): the first
rail tile of the 5×5 neighbourhood in scan order, if any. -/
def findNearbyRail (grid : Grid) (gridSize : Nat) (tx ty : Int) :
    Option (Int × Int) :=
  searchOffsets.findSome? fun o =>
    if isRailTile grid gridSize (tx + o.1) (ty + o.2) then
      some (tx + o.1, ty + o.2)
    else none

/-- The per-train body of `updateTrains` from the part_006 train system,
returning the surviving train or none when the filter drops it.  `q` is
the `Math.random()` draw of the (at most one) direction re-pick made by
this step. -/
def updateTrainP6 (grid : Grid) (gridSize : Nat) (q : ℚ) (deltaTime : ℚ)
    (t0 : TrainP6) : Option TrainP6 :=
  let t1 := { t0 with age := t0.age + deltaTime }
  if t1.age ≥ t1.maxAge then none
  else if ¬ isRailTile grid gridSize t1.tileX t1.tileY then
    match findNearbyRail grid gridSize t1.tileX t1.tileY with
    | some nxy => some { t1 with tileX := nxy.1, tileY := nxy.2 }
    | none => none
  else
    let t2 := { t1 with progress := t1.progress + t1.speed * deltaTime }
    if t2.progress ≥ 1 then
      let t3 := { t2 with progress := 0 }
      let newTileX := t3.tileX + (dirStep t3.direction).1
      let newTileY := t3.tileY + (dirStep t3.direction).2
      if ¬ isRailTile grid gridSize newTileX newTileY then
        let options := getRailDirectionOptions grid gridSize t3.tileX t3.tileY
        let filtered := options.filter
          fun d => d ≠ getOppositeDirection t3.direction
        if filtered.length > 0 then
          some { t3 with direction := pickRandom filtered q t3.direction }
        else
          some { t3 with progress := 1 / 2 }
      else
        let t4 := { t3 with tileX := newTileX, tileY := newTileY }
        let nextOptions :=
          getRailDirectionOptions grid gridSize newTileX newTileY
        let incoming := getOppositeDirection t4.direction
        let filtered := nextOptions.filter fun d => d ≠ incoming
        if filtered.length > 0 then
          some { t4 with direction := pickRandom filtered q t4.direction }
        else if nextOptions.length > 0 then
          some { t4 with direction := nextOptions.headD t4.direction }
        else some t4
    else some t2

/-- Spawn-gate rail count of the part_006 `updateTrains`: the cached
count is used only when its version matches, otherwise the count is
taken to be zero (no recomputation happens there). -/
structure CountCache where
  count : Nat
  gridVersion : Int
deriving Repr, DecidableEq

def railCountFromCacheP6 (cache : CountCache)
    (currentGridVersion : Int) : Nat :=
  if cache.gridVersion = currentGridVersion then cache.count else 0

/-- The grid cells in row-major scan order (y outer, x inner), matching
the counting loops of the sources. -/
def gridCells (gridSize : Nat) : List (Int × Int) :=
  (List.range gridSize).flatMap fun y =>
    (List.range gridSize).map fun x => ((x : Int), (y : Int))

/-- The rail-tile counting loop of trainSystem.ts. -/
def countRailTiles (grid : Grid) (gridSize : Nat) : Nat :=
  (gridCells gridSize).countP fun c => tileTypeAt grid c.1 c.2 == some "rail"

/-- The road-tile counting loop of the part_008 pedestrian system. -/
def countRoadTiles (grid : Grid) (gridSize : Nat) : Nat :=
  (gridCells gridSize).countP fun c => tileTypeAt grid c.1 c.2 == some "road"

/-- Population of the building at a cell, 0 when absent (the source's
`|| 0`). -/
def populationAt (grid : Grid) (x y : Int) : Nat :=
  match grid.get? y.toNat with
  | some row =>
    match row.get? x.toNat with
    | some t => t.building.population
    | none => 0
  | none => 0

/-- The population totalling loop of `getPopulation` (useAircraft.ts). -/
def totalPopulation (grid : Grid) (gridSize : Nat) : Nat :=
  ((gridCells gridSize).map fun c => populationAt grid c.1 c.2).sum

end IsoCity

namespace IsoCity

/-! ## Helper lemmas about direction choice -/

theorem getOppositeDirection_ne (d : CarDirection) :
    getOppositeDirection d ≠ d := by cases d <;> decide

theorem pickRandom_eq_or_mem {α : Type} (l : List α) (q : ℚ) (d : α) :
    pickRandom l q d = d ∨ pickRandom l q d ∈ l := by
  unfold pickRandom
  cases h : l.get? (Int.toNat ⌊q * (l.length : ℚ)⌋) with
  | none => exact Or.inl rfl
  | some a => exact Or.inr (List.get?_mem h)

theorem nodup_all_eq_singleton {α : Type} {l : List α} {a : α}
    (hne : l ≠ []) (hnd : l.Nodup) (hall : ∀ x ∈ l, x = a) : l = [a] := by
  cases l with
  | nil => exact absurd rfl hne
  | cons b tl =>
    have hb : b = a := hall b (List.mem_cons_self b tl)
    cases tl with
    | nil => rw [hb]
    | cons c tl2 =>
      have hc : c = a := hall c (by simp)
      exfalso
      have : b ∉ c :: tl2 := (List.nodup_cons.mp hnd).1
      exact this (by simp [hb, hc])

theorem getRailDirectionOptions_nodup (grid : Grid) (gridSize : Nat)
    (x y : Int) : (getRailDirectionOptions grid gridSize x y).Nodup := by
  apply List.Nodup.filter
  decide

theorem getDirectionOptions_nodup (grid : Grid) (gridSize : Nat)
    (x y : Int) : (getDirectionOptions grid gridSize x y).Nodup := by
  apply List.Nodup.filter
  decide

/-- A part_006 train whose age reaches or exceeds its maximum during the
update is dropped from the live list. -/
theorem updateTrainP6_age_removed (grid : Grid) (gridSize : Nat)
    (q deltaTime : ℚ) (t0 : TrainP6)
    (h : t0.age + deltaTime ≥ t0.maxAge) :
    updateTrainP6 grid gridSize q deltaTime t0 = none := by
  simp [updateTrainP6, h]

/-- A part_006 train never reverses into the opposite of its incoming
direction unless that reversal is the only rail option at its tile. -/
theorem updateTrainP6_no_reversal (grid : Grid) (gridSize : Nat)
    (q deltaTime : ℚ) (t0 t' : TrainP6)
    (hu : updateTrainP6 grid gridSize q deltaTime t0 = some t')
    (hrev : t'.direction = getOppositeDirection t0.direction) :
    getRailDirectionOptions grid gridSize t'.tileX t'.tileY =
      [getOppositeDirection t0.direction] := by
  have hne := getOppositeDirection_ne t0.direction
  simp only [updateTrainP6] at hu
  split at hu
  · exact absurd hu (by simp)
  · split at hu
    · split at hu
      · cases hu
        exact absurd hrev.symm hne
      · exact absurd hu (by simp)
    · split at hu
      · split at hu
        · split at hu
          · -- dead end at the current tile: direction re-picked from
            -- the non-reversing options
            cases hu
            simp only at hrev
            rcases pickRandom_eq_or_mem
                ((getRailDirectionOptions grid gridSize t0.tileX t0.tileY).filter
                  fun d => d ≠ getOppositeDirection t0.direction) q
                t0.direction with hd0 | hmem
            · rw [hd0] at hrev
              exact absurd hrev.symm hne
            · rw [hrev] at hmem
              have := (List.mem_filter.mp hmem).2
              simp at this
          · cases hu
            exact absurd hrev.symm hne
        · split at hu
          · -- normal crossing: direction re-picked from the
            -- non-reversing options at the new tile
            cases hu
            simp only at hrev
            rcases pickRandom_eq_or_mem
                ((getRailDirectionOptions grid gridSize _ _).filter
                  fun d => d ≠ getOppositeDirection t0.direction) q
                t0.direction with hd | hmem
            · rw [hd] at hrev
              exact absurd hrev.symm hne
            · rw [hrev] at hmem
              have := (List.mem_filter.mp hmem).2
              simp at this
          · split at hu
            · -- dead-end fallback: the options list is exactly the
              -- reversal
              cases hu
              simp only at hrev ⊢
              rename_i hfil hlen
              have hempty : (getRailDirectionOptions grid gridSize
                  (t0.tileX + (dirStep t0.direction).1)
                  (t0.tileY + (dirStep t0.direction).2)).filter
                  (fun d => d ≠ getOppositeDirection t0.direction) = [] := by
                have := Nat.eq_zero_of_not_pos hfil
                exact List.length_eq_zero.mp this
              have hall : ∀ d ∈ getRailDirectionOptions grid gridSize
                  (t0.tileX + (dirStep t0.direction).1)
                  (t0.tileY + (dirStep t0.direction).2),
                  d = getOppositeDirection t0.direction := by
                intro d hd
                by_contra hne2
                have : d ∈ (getRailDirectionOptions grid gridSize
                    (t0.tileX + (dirStep t0.direction).1)
                    (t0.tileY + (dirStep t0.direction).2)).filter
                    (fun d => d ≠ getOppositeDirection t0.direction) :=
                  List.mem_filter.mpr ⟨hd, by simpa using hne2⟩
                rw [hempty] at this
                simp at this
              have hnonempty : getRailDirectionOptions grid gridSize
                  (t0.tileX + (dirStep t0.direction).1)
                  (t0.tileY + (dirStep t0.direction).2) ≠ [] := by
                intro hnil
                rw [hnil] at hlen
                simp at hlen
              have := nodup_all_eq_singleton hnonempty
                (getRailDirectionOptions_nodup grid gridSize _ _) hall
              rw [this]
            · cases hu
              exact absurd hrev.symm hne
      · cases hu
        exact absurd hrev.symm hne

/-- Every offset scanned by the off-rail recovery lies within the 5×5
neighbourhood. -/
theorem mem_searchOffsets {o : Int × Int} (h : o ∈ searchOffsets) :
    o.1.natAbs ≤ 2 ∧ o.2.natAbs ≤ 2 := by
  have : ∀ p ∈ searchOffsets, p.1.natAbs ≤ 2 ∧ p.2.natAbs ≤ 2 := by decide
  exact this o h

/-- A successful recovery scan returns a rail tile within the 5×5
neighbourhood. -/
theorem findNearbyRail_some_rail (grid : Grid) (gridSize : Nat)
    (tx ty nx ny : Int)
    (h : findNearbyRail grid gridSize tx ty = some (nx, ny)) :
    isRailTile grid gridSize nx ny = true ∧
    (nx - tx).natAbs ≤ 2 ∧ (ny - ty).natAbs ≤ 2 := by
  unfold findNearbyRail at h
  obtain ⟨o, ho, hfo⟩ := List.exists_of_findSome?_eq_some h
  obtain ⟨hb1, hb2⟩ := mem_searchOffsets ho
  by_cases hr : isRailTile grid gridSize (tx + o.1) (ty + o.2) = true
  · rw [if_pos hr] at hfo
    obtain ⟨hx, hy⟩ := Prod.mk.injEq .. ▸ Option.some.inj hfo
    subst hx; subst hy
    refine ⟨hr, ?_, ?_⟩ <;> simpa
  · rw [if_neg hr] at hfo
    exact absurd hfo (by simp)

/-- A failed recovery scan means no rail tile exists anywhere in the 5×5
neighbourhood. -/
theorem findNearbyRail_none (grid : Grid) (gridSize : Nat) (tx ty : Int)
    (h : findNearbyRail grid gridSize tx ty = none) :
    ∀ dx dy : Int, dx.natAbs ≤ 2 → dy.natAbs ≤ 2 →
      isRailTile grid gridSize (tx + dx) (ty + dy) = false := by
  intro dx dy hdx hdy
  unfold findNearbyRail at h
  rw [List.findSome?_eq_none] at h
  have hmem : (dx, dy) ∈ searchOffsets := by
    simp [searchOffsets, List.mem_flatMap, List.mem_map, List.mem_range,
      Prod.mk.injEq]
    exact ⟨(dx + 2).toNat, by omega, dy + 2,
      ⟨(dy + 2).toNat, by omega, by omega⟩, by omega, by omega⟩
  have h2 := h (dx, dy) hmem
  simp only at h2
  by_contra hr
  simp only [Bool.not_eq_false] at hr
  rw [if_pos hr] at h2
  exact absurd h2 (by simp)

/-- A part_006 train whose tile is no longer rail is either relocated to
a rail tile inside the 5×5 scan neighbourhood or removed, and removal
happens only through ageing out or when no rail exists in that
neighbourhood. -/
theorem updateTrainP6_stranded (grid : Grid) (gridSize : Nat)
    (q deltaTime : ℚ) (t0 : TrainP6)
    (hoff : isRailTile grid gridSize t0.tileX t0.tileY = false) :
    (∃ t', updateTrainP6 grid gridSize q deltaTime t0 = some t' ∧
        isRailTile grid gridSize t'.tileX t'.tileY = true ∧
        (t'.tileX - t0.tileX).natAbs ≤ 2 ∧
        (t'.tileY - t0.tileY).natAbs ≤ 2) ∨
    (updateTrainP6 grid gridSize q deltaTime t0 = none ∧
      (t0.age + deltaTime ≥ t0.maxAge ∨
        ∀ dx dy : Int, dx.natAbs ≤ 2 → dy.natAbs ≤ 2 →
          isRailTile grid gridSize (t0.tileX + dx) (t0.tileY + dy) =
            false)) := by
  by_cases hage : t0.age + deltaTime ≥ t0.maxAge
  · exact Or.inr ⟨updateTrainP6_age_removed grid gridSize q deltaTime t0
      hage, Or.inl hage⟩
  · cases hfr : findNearbyRail grid gridSize t0.tileX t0.tileY with
    | some nxy =>
      obtain ⟨nx, ny⟩ := nxy
      obtain ⟨h1, h2, h3⟩ :=
        findNearbyRail_some_rail grid gridSize t0.tileX t0.tileY nx ny hfr
      have hu : updateTrainP6 grid gridSize q deltaTime t0 =
          some { t0 with age := t0.age + deltaTime, tileX := nx, tileY := ny } := by
        simp [updateTrainP6, hage, hoff, hfr]
      exact Or.inl ⟨_, hu, by simpa using h1, by simpa using h2,
        by simpa using h3⟩
    | none =>
      refine Or.inr ⟨?_, Or.inr
        (findNearbyRail_none grid gridSize t0.tileX t0.tileY hfr)⟩
      simp [updateTrainP6, hage, hoff, hfr]

/-! ## part_007 car system -/

/-- Modelled from the spec: the car colour palette lives in the missing
`constants` module; the spec says only that a colour is chosen at spawn
and immutable thereafter, so the palette contents are arbitrary. -/
def carColors : List String :=
  ["#ef4444", "#3b82f6", "#22c55e", "#f59e0b", "#8b5cf6"]

/-- Modelled from the spec: `pickNextDirection` (shared `utils` module,
absent): re-choose a direction at a cell boundary among the road options
of the tile, excluding the reverse of the current direction unless it is
the only option; none when the tile has no road options at all. -/
def pickNextDirection (q : ℚ) (current : CarDirection) (grid : Grid)
    (gridSize : Nat) (x y : Int) : Option CarDirection :=
  let options := getDirectionOptions grid gridSize x y
  let filtered := options.filter fun d => d ≠ getOppositeDirection current
  if filtered.length > 0 then some (pickRandom filtered q current)
  else if options.length > 0 then some (options.headD current)
  else none

/-- `Car` from the shared types module, with the fields used by the car
system. -/
structure Car where
  id : Nat
  tileX : Int
  tileY : Int
  direction : CarDirection
  progress : ℚ
  speed : ℚ
  age : ℚ
  maxAge : ℚ
  color : String
  laneOffset : ℚ
deriving Repr, DecidableEq

/-- The guarded boundary-crossing loop of `updateCars` (part_007):
`while (progress >= 1 && guard < 4)`, stepping one tile per iteration,
despawning on a non-road next tile or on a missing next direction.
`k` is the index of the next unconsumed `Math.random()` draw. -/
def carCrossings (grid : Grid) (gridSize : Nat) (rnd : Nat → ℚ) :
    Nat → Nat → Car → Option Car × Nat
  | 0, k, c => (some c, k)
  | guard + 1, k, c =>
    if c.progress ≥ 1 then
      let cx := c.tileX + (dirStep c.direction).1
      let cy := c.tileY + (dirStep c.direction).2
      if ¬ isRoadTile grid gridSize cx cy then (none, k)
      else
        let c2 :=
          { c with
            tileX := cx
            tileY := cy
            progress := c.progress - 1 }
        match pickNextDirection (rnd k) c2.direction grid gridSize cx cy with
        | none => (none, k + 1)
        | some d => carCrossings grid gridSize rnd guard (k + 1)
            { c2 with direction := d }
    else (some c, k)

/-- The per-car body of `updateCars` (part_007): age the car, drop it
past `maxAge` (strictly) or off road, advance progress, resolve
boundary crossings. -/
def updateCarStep (grid : Grid) (gridSize : Nat) (rnd : Nat → ℚ) (k : Nat)
    (speedMultiplier deltaTime : ℚ) (c0 : Car) : Option Car × Nat :=
  let c1 := { c0 with age := c0.age + deltaTime }
  if c1.age > c1.maxAge then (none, k)
  else if ¬ isRoadTile grid gridSize c1.tileX c1.tileY then (none, k)
  else
    carCrossings grid gridSize rnd 4 k
      { c1 with progress := c1.progress + c1.speed * deltaTime *
          speedMultiplier }

/-- The candidate-attempt loop of `spawnRandomCar` (part_007): up to 20
random tiles; the first road tile with at least one direction option
yields a car. -/
def spawnCarAttempts (grid : Grid) (gridSize : Nat) (rnd : Nat → ℚ)
    (carId : Nat) : Nat → Nat → Option Car × Nat
  | 0, k => (none, k)
  | att + 1, k =>
    let tileX : Int := ⌊rnd k * (gridSize : ℚ)⌋
    let tileY : Int := ⌊rnd (k + 1) * (gridSize : ℚ)⌋
    if ¬ isRoadTile grid gridSize tileX tileY then
      spawnCarAttempts grid gridSize rnd carId att (k + 2)
    else
      let options := getDirectionOptions grid gridSize tileX tileY
      if options.length = 0 then
        spawnCarAttempts grid gridSize rnd carId att (k + 2)
      else
        (some
          { id := carId
            tileX := tileX
            tileY := tileY
            direction := pickRandom options (rnd (k + 2)) .south
            progress := rnd (k + 3) * (4 / 5)
            speed := (7 / 20 + rnd (k + 4) * (7 / 20)) * (7 / 10)
            age := 0
            maxAge := 1800 + rnd (k + 5) * 2700
            color := pickRandom carColors (rnd (k + 6)) "#000000"
            laneOffset := (if rnd (k + 7) < 1 / 2 then -1 else 1) *
              (4 + rnd (k + 8) * 3) }, k + 9)

/-- `spawnRandomCar` (part_007), with 20 attempts. -/
def spawnRandomCar (grid : Grid) (gridSize : Nat) (rnd : Nat → ℚ)
    (k : Nat) (carId : Nat) : Option Car × Nat :=
  spawnCarAttempts grid gridSize rnd carId 20 k

/-- The global speed multiplier shared by the ground-vehicle systems:
`speed === 0 ? 0 : speed === 1 ? 1 : speed === 2 ? 2.5 : 4`. -/
def carSpeedMultiplier (speed : Nat) : ℚ :=
  if speed = 0 then 0 else if speed = 1 then 1
  else if speed = 2 then 5 / 2 else 4

/-- The private state of the car manager: live cars, the id counter and
the spawn countdown timer. -/
structure CarState where
  cars : List Car
  nextId : Nat
  spawnTimer : ℚ
deriving Repr, DecidableEq

/-- The surviving-car loop of `updateCars` (part_007), threading the
random-draw index left to right. -/
def moveCars (grid : Grid) (gridSize : Nat) (rnd : Nat → ℚ)
    (speedMultiplier deltaTime : ℚ) : List Car → Nat → List Car
  | [], _ => []
  | c :: rest, k =>
    match updateCarStep grid gridSize rnd k speedMultiplier deltaTime c with
    | (some c2, k2) =>
      c2 :: moveCars grid gridSize rnd speedMultiplier deltaTime rest k2
    | (none, k2) => moveCars grid gridSize rnd speedMultiplier deltaTime rest k2

/-- The spawn phase of `updateCars` (part_007): count the timer down,
attempt a spawn when below the capacity ceiling with an expired timer,
and reset the timer to a randomized interval (shorter after a failed
attempt).  Returns the car list (with any new car pushed), the id
counter, the new timer and the next random-draw index. -/
def carSpawnPhase (rnd : Nat → ℚ) (grid : Grid) (gridSize : Nat)
    (delta : ℚ) (st : CarState) : List Car × Nat × ℚ × Nat :=
  let maxCars := min 160 (max 16 (2 * gridSize))
  let timer1 := st.spawnTimer - delta
  if st.cars.length < maxCars ∧ timer1 ≤ 0 then
    match spawnRandomCar grid gridSize rnd 0 st.nextId with
    | (some c, k) =>
      (st.cars ++ [c], st.nextId + 1, 9 / 10 + rnd k * (13 / 10), k + 1)
    | (none, k) => (st.cars, st.nextId, 1 / 2, k)
  else (st.cars, st.nextId, timer1, 0)

/-- `updateCars` from part_007: grid gate, spawn phase, then the per-car
update over the list including any car spawned this frame. -/
def updateCars (rnd : Nat → ℚ) (gridOpt : Option Grid) (gridSize : Nat)
    (speed : Nat) (delta : ℚ) (st : CarState) : CarState :=
  match gridOpt with
  | none => { st with cars := [] }
  | some grid =>
    if gridSize = 0 then { st with cars := [] }
    else
      let speedMultiplier := carSpeedMultiplier speed
      let spawnPhase := carSpawnPhase rnd grid gridSize delta st
      { cars := moveCars grid gridSize rnd speedMultiplier delta
          spawnPhase.1 spawnPhase.2.2.2,
        nextId := spawnPhase.2.1,
        spawnTimer := spawnPhase.2.2.1 }

/-- The car direction chooser never returns the reverse of the current
direction unless that reversal is the only road option at the tile. -/
theorem pickNextDirection_no_reversal (q : ℚ) (current : CarDirection)
    (grid : Grid) (gridSize : Nat) (x y : Int) (d : CarDirection)
    (h : pickNextDirection q current grid gridSize x y = some d)
    (hrev : d = getOppositeDirection current) :
    getDirectionOptions grid gridSize x y = [d] := by
  have hne := getOppositeDirection_ne current
  simp only [pickNextDirection] at h
  split at h
  · cases h
    rcases pickRandom_eq_or_mem
        ((getDirectionOptions grid gridSize x y).filter
          fun e => e ≠ getOppositeDirection current) q current with hd0 | hmem
    · rw [hd0] at hrev
      exact absurd hrev.symm hne
    · rw [hrev] at hmem
      have := (List.mem_filter.mp hmem).2
      simp at this
  · split at h
    · cases h
      rename_i hfil hlen
      have hempty : (getDirectionOptions grid gridSize x y).filter
          (fun e => e ≠ getOppositeDirection current) = [] :=
        List.length_eq_zero.mp (Nat.eq_zero_of_not_pos hfil)
      have hall : ∀ e ∈ getDirectionOptions grid gridSize x y,
          e = getOppositeDirection current := by
        intro e he
        by_contra hne2
        have : e ∈ (getDirectionOptions grid gridSize x y).filter
            (fun e => e ≠ getOppositeDirection current) :=
          List.mem_filter.mpr ⟨he, by simpa using hne2⟩
        rw [hempty] at this
        simp at this
      have hnonempty : getDirectionOptions grid gridSize x y ≠ [] := by
        intro hnil
        rw [hnil] at hlen
        simp at hlen
      have hsing := nodup_all_eq_singleton hnonempty
        (getDirectionOptions_nodup grid gridSize x y) hall
      rw [hsing]
      simp
    · exact absurd h (by simp)

/-- A part_007 car whose age strictly exceeds its maximum after ageing
is dropped. -/
theorem updateCarStep_age_removed (grid : Grid) (gridSize : Nat)
    (rnd : Nat → ℚ) (k : Nat) (speedMultiplier delta : ℚ) (c0 : Car)
    (h : c0.age + delta > c0.maxAge) :
    updateCarStep grid gridSize rnd k speedMultiplier delta c0 =
      (none, k) := by
  simp [updateCarStep, h]

/-- A part_007 car standing on a tile that is no longer road is dropped
without any relocation attempt. -/
theorem updateCarStep_offRoad (grid : Grid) (gridSize : Nat)
    (rnd : Nat → ℚ) (k : Nat) (speedMultiplier delta : ℚ) (c0 : Car)
    (hoff : isRoadTile grid gridSize c0.tileX c0.tileY = false) :
    updateCarStep grid gridSize rnd k speedMultiplier delta c0 =
      (none, k) := by
  by_cases h : c0.age + delta > c0.maxAge
  · simp [updateCarStep, h]
  · simp [updateCarStep, h, hoff]

/-- With an absent grid, `updateCars` clears the live set and changes
nothing else. -/
theorem updateCars_no_grid (rnd : Nat → ℚ) (gridSize : Nat) (speed : Nat)
    (delta : ℚ) (st : CarState) :
    updateCars rnd none gridSize speed delta st = { st with cars := [] } :=
  rfl

/-- With grid size 0, `updateCars` clears the live set and changes
nothing else. -/
theorem updateCars_size_zero (rnd : Nat → ℚ) (grid : Grid) (speed : Nat)
    (delta : ℚ) (st : CarState) :
    updateCars rnd (some grid) 0 speed delta st = { st with cars := [] } :=
  rfl

/-- The boundary-crossing loop keeps a surviving car's progress inside
`[0, 1)` whenever the incoming progress needs at most `fuel` crossings. -/
theorem carCrossings_progress (grid : Grid) (gridSize : Nat)
    (rnd : Nat → ℚ) :
    ∀ (fuel k : Nat) (c : Car), 0 ≤ c.progress →
      c.progress < (fuel : ℚ) + 1 →
      ∀ c2 k2, carCrossings grid gridSize rnd fuel k c = (some c2, k2) →
        0 ≤ c2.progress ∧ c2.progress < 1 := by
  intro fuel
  induction fuel with
  | zero =>
    intro k c h0 hb c2 k2 hc
    simp only [carCrossings] at hc
    have hc1 := Option.some.inj (congrArg Prod.fst hc)
    subst hc1
    exact ⟨h0, by simpa using hb⟩
  | succ g ih =>
    intro k c h0 hb c2 k2 hc
    simp only [carCrossings] at hc
    split at hc
    · rename_i hge
      split at hc
      · exact absurd hc (by simp)
      · split at hc
        · exact absurd hc (by simp)
        · rename_i d hd
          refine ih (k + 1) _ ?_ ?_ c2 k2 hc
          · simpa using sub_nonneg.mpr hge
          · have : c.progress < (g : ℚ) + 1 + 1 := by
              push_cast at hb ⊢
              linarith
            simpa using sub_lt_iff_lt_add.mpr this
    · rename_i hlt
      have hc1 := Option.some.inj (congrArg Prod.fst hc)
      subst hc1
      exact ⟨h0, lt_of_not_le (by simpa using hlt)⟩

/-- A surviving part_007 car ends its update with progress in `[0, 1)`
provided the advance requires at most the guarded four crossings. -/
theorem updateCarStep_progress (grid : Grid) (gridSize : Nat)
    (rnd : Nat → ℚ) (k : Nat) (speedMultiplier delta : ℚ) (c0 : Car)
    (h0 : 0 ≤ c0.progress)
    (hadv : 0 ≤ c0.speed * delta * speedMultiplier)
    (hb : c0.progress + c0.speed * delta * speedMultiplier < 5) :
    ∀ c2 k2, updateCarStep grid gridSize rnd k speedMultiplier delta c0 =
        (some c2, k2) → 0 ≤ c2.progress ∧ c2.progress < 1 := by
  intro c2 k2 hc
  simp only [updateCarStep] at hc
  split at hc
  · exact absurd hc (by simp)
  · split at hc
    · exact absurd hc (by simp)
    · refine carCrossings_progress grid gridSize rnd 4 k _ ?_ ?_ c2 k2 hc
      · simpa using add_nonneg h0 hadv
      · push_cast
        linarith

/-- A freshly spawned car starts with progress in `[0, 4/5)` and speed
in `[0, 1/2)` when the random draws are genuine. -/
theorem spawnCarAttempts_bounds (grid : Grid) (gridSize : Nat)
    (rnd : Nat → ℚ) (carId : Nat)
    (hr : ∀ i, 0 ≤ rnd i ∧ rnd i < 1) :
    ∀ (att k : Nat) (c : Car) (k2 : Nat),
      spawnCarAttempts grid gridSize rnd carId att k = (some c, k2) →
      0 ≤ c.progress ∧ c.progress < 4 / 5 ∧ 0 ≤ c.speed ∧
        c.speed < 1 / 2 := by
  intro att
  induction att with
  | zero =>
    intro k c k2 h
    simp [spawnCarAttempts] at h
  | succ a ih =>
    intro k c k2 h
    simp only [spawnCarAttempts] at h
    split at h
    · exact ih _ c k2 h
    · split at h
      · exact ih _ c k2 h
      · have hc := Option.some.inj (congrArg Prod.fst h)
        subst hc
        obtain ⟨h3a, h3b⟩ := hr (k + 3)
        obtain ⟨h4a, h4b⟩ := hr (k + 4)
        refine ⟨?_, ?_, ?_, ?_⟩ <;> dsimp only <;> nlinarith

/-- Spec-side description of a paused frame for one car: the car ages
and can be culled (age or off-road), but its position fields are
untouched. -/
def pausedCarOutcome (grid : Grid) (gridSize : Nat) (delta : ℚ)
    (c : Car) : Option Car :=
  if c.age + delta > c.maxAge then none
  else if ¬ isRoadTile grid gridSize c.tileX c.tileY then none
  else some { c with age := c.age + delta }

/-- With speed multiplier 0, one car's update step reduces to the paused
outcome: same tile, progress and direction, aged by `delta`, and no
random draw consumed. -/
theorem updateCarStep_paused (grid : Grid) (gridSize : Nat)
    (rnd : Nat → ℚ) (k : Nat) (delta : ℚ) (c0 : Car)
    (hlt : c0.progress < 1) :
    updateCarStep grid gridSize rnd k 0 delta c0 =
      (pausedCarOutcome grid gridSize delta c0, k) := by
  have hp : c0.progress + c0.speed * delta * 0 = c0.progress := by ring
  simp only [updateCarStep, pausedCarOutcome]
  split
  · rfl
  · split
    · rfl
    · rw [hp]
      show carCrossings grid gridSize rnd 4 k
        { c0 with age := c0.age + delta, progress := c0.progress } = _
      simp only [carCrossings]
      rw [if_neg (by simpa using not_le.mpr hlt)]

/-- With speed multiplier 0 the whole surviving-car loop is the paused
outcome applied car by car. -/
theorem moveCars_paused (grid : Grid) (gridSize : Nat) (rnd : Nat → ℚ)
    (delta : ℚ) :
    ∀ (cars : List Car) (k : Nat), (∀ c ∈ cars, c.progress < 1) →
      moveCars grid gridSize rnd 0 delta cars k =
        cars.filterMap (pausedCarOutcome grid gridSize delta) := by
  intro cars
  induction cars with
  | nil => intro k h; rfl
  | cons c rest ih =>
    intro k h
    have hc := h c (by simp)
    have hrest : ∀ x ∈ rest, x.progress < 1 := fun x hx => h x (by simp [hx])
    simp only [moveCars, updateCarStep_paused grid gridSize rnd k delta c hc]
    cases hpc : pausedCarOutcome grid gridSize delta c with
    | none => simp [List.filterMap_cons, hpc, ih _ hrest]
    | some c2 => simp [List.filterMap_cons, hpc, ih _ hrest]

/-- Every car in the list produced by the spawn phase has progress below
1, assuming the incoming cars do and the random draws are genuine. -/
theorem carSpawnPhase_progress (rnd : Nat → ℚ) (grid : Grid)
    (gridSize : Nat) (delta : ℚ) (st : CarState)
    (hr : ∀ i, 0 ≤ rnd i ∧ rnd i < 1)
    (hcars : ∀ c ∈ st.cars, c.progress < 1) :
    ∀ c ∈ (carSpawnPhase rnd grid gridSize delta st).1,
      c.progress < 1 := by
  intro c hc
  simp only [carSpawnPhase] at hc
  split at hc
  · cases hsp : spawnRandomCar grid gridSize rnd 0 st.nextId with
    | mk oc k =>
      rw [hsp] at hc
      cases oc with
      | some c2 =>
        simp only [List.mem_append, List.mem_singleton] at hc
        rcases hc with hc | rfl
        · exact hcars c hc
        · obtain ⟨_, hlt, _, _⟩ := spawnCarAttempts_bounds grid gridSize
            rnd st.nextId hr 20 0 c k hsp
          linarith
      | none => exact hcars c (by simpa using hc)
  · exact hcars c hc

/-- C10 core: a paused (`speed = 0`) car update leaves every surviving
car's tile, progress and direction unchanged while still ageing cars,
culling over-age or off-road cars, counting the spawn timer down, and
possibly spawning — the spawn phase is identical to the unpaused one. -/
theorem updateCars_paused (rnd : Nat → ℚ) (grid : Grid) (gridSize : Nat)
    (delta : ℚ) (st : CarState) (hn : gridSize ≠ 0)
    (hr : ∀ i, 0 ≤ rnd i ∧ rnd i < 1)
    (hcars : ∀ c ∈ st.cars, c.progress < 1) :
    updateCars rnd (some grid) gridSize 0 delta st =
      { cars := (carSpawnPhase rnd grid gridSize delta st).1.filterMap
          (pausedCarOutcome grid gridSize delta),
        nextId := (carSpawnPhase rnd grid gridSize delta st).2.1,
        spawnTimer := (carSpawnPhase rnd grid gridSize delta st).2.2.1 } := by
  simp only [updateCars, if_neg hn]
  have hm : carSpeedMultiplier 0 = 0 := rfl
  rw [hm]
  rw [moveCars_paused grid gridSize rnd delta _ _
    (carSpawnPhase_progress rnd grid gridSize delta st hr hcars)]

/-- The speed multiplier is between 0 and 4 for every global speed. -/
theorem carSpeedMultiplier_bounds (speed : Nat) :
    0 ≤ carSpeedMultiplier speed ∧ carSpeedMultiplier speed ≤ 4 := by
  unfold carSpeedMultiplier
  split_ifs <;> norm_num

/-- The surviving-car loop keeps progress inside `[0, 1)` for every car
it emits. -/
theorem moveCars_progress (grid : Grid) (gridSize : Nat) (rnd : Nat → ℚ)
    (speedMultiplier delta : ℚ) :
    ∀ (cars : List Car) (k : Nat),
      (∀ c ∈ cars, 0 ≤ c.progress ∧ 0 ≤ c.speed * delta * speedMultiplier ∧
        c.progress + c.speed * delta * speedMultiplier < 5) →
      ∀ c2 ∈ moveCars grid gridSize rnd speedMultiplier delta cars k,
        0 ≤ c2.progress ∧ c2.progress < 1 := by
  intro cars
  induction cars with
  | nil => intro k h c2 hc2; simp [moveCars] at hc2
  | cons c rest ih =>
    intro k h c2 hc2
    obtain ⟨h1, h2, h3⟩ := h c (by simp)
    have hrest : ∀ x ∈ rest, 0 ≤ x.progress ∧
        0 ≤ x.speed * delta * speedMultiplier ∧
        x.progress + x.speed * delta * speedMultiplier < 5 :=
      fun x hx => h x (by simp [hx])
    simp only [moveCars] at hc2
    cases hstep : updateCarStep grid gridSize rnd k speedMultiplier delta c
      with
    | mk oc k3 =>
      rw [hstep] at hc2
      cases oc with
      | some c3 =>
        simp only [List.mem_cons] at hc2
        rcases hc2 with rfl | hc2
        · exact updateCarStep_progress grid gridSize rnd k speedMultiplier
            delta c h1 h2 h3 c2 k3 hstep
        · exact ih k3 hrest c2 hc2
      | none => exact ih k3 hrest c2 hc2

/-- After a car update with a bounded frame delta, every live car's
progress is in `[0, 1)`. -/
theorem updateCars_progress (rnd : Nat → ℚ) (gridOpt : Option Grid)
    (gridSize : Nat) (speed : Nat) (delta : ℚ) (st : CarState)
    (hr : ∀ i, 0 ≤ rnd i ∧ rnd i < 1) (hd0 : 0 ≤ delta) (hd2 : delta ≤ 2)
    (hcars : ∀ c ∈ st.cars, 0 ≤ c.progress ∧ 0 ≤ c.speed ∧
      c.progress + c.speed * delta * carSpeedMultiplier speed < 5) :
    ∀ c ∈ (updateCars rnd gridOpt gridSize speed delta st).cars,
      0 ≤ c.progress ∧ c.progress < 1 := by
  obtain ⟨hm0, hm4⟩ := carSpeedMultiplier_bounds speed
  cases gridOpt with
  | none => intro c hc; simp [updateCars] at hc
  | some grid =>
    by_cases hn : gridSize = 0
    · intro c hc
      simp [updateCars, hn] at hc
    · intro c hc
      simp only [updateCars, if_neg hn] at hc
      refine moveCars_progress grid gridSize rnd _ delta _ _ ?_ c hc
      intro x hx
      simp only [carSpawnPhase] at hx
      split at hx
      · cases hsp : spawnRandomCar grid gridSize rnd 0 st.nextId with
        | mk oc k =>
          rw [hsp] at hx
          cases oc with
          | some c2 =>
            simp only [List.mem_append, List.mem_singleton] at hx
            rcases hx with hx | rfl
            · obtain ⟨a, b, cc⟩ := hcars x hx
              exact ⟨a, mul_nonneg (mul_nonneg b hd0) hm0, cc⟩
            · obtain ⟨p0, plt, s0, slt⟩ := spawnCarAttempts_bounds grid
                gridSize rnd st.nextId hr 20 0 x k hsp
              have h1 : x.speed * delta ≤ 1 / 2 * 2 :=
                mul_le_mul slt.le hd2 hd0 (by norm_num)
              have h2 : x.speed * delta * carSpeedMultiplier speed ≤
                  1 / 2 * 2 * 4 :=
                mul_le_mul h1 hm4 hm0 (by norm_num)
              refine ⟨p0, mul_nonneg (mul_nonneg s0 hd0) hm0, ?_⟩
              linarith
          | none =>
            simp only [] at hx
            obtain ⟨a, b, cc⟩ := hcars x hx
            exact ⟨a, mul_nonneg (mul_nonneg b hd0) hm0, cc⟩
      · obtain ⟨a, b, cc⟩ := hcars x hx
        exact ⟨a, mul_nonneg (mul_nonneg b hd0) hm0, cc⟩

/-- A 1×1 all-road grid. -/
def grid1 : Grid := [[roadB]]

/-- A demonstration car sitting on the 1×1 road grid with
`maxAge = 2`. -/
def demoCar : Car :=
  { id := 0, tileX := 0, tileY := 0, direction := .south, progress := 0,
    speed := 1, age := 0, maxAge := 2, color := "#fff", laneOffset := 0 }

/-- A degenerate random stream (never consulted in the concrete runs
below, which keep the spawn timer positive). -/
def rnd0 : Nat → ℚ := fun _ => 0

/-- Counterexample to removal at `age = maxAge` for cars: after an
update whose cumulative delta exactly equals `maxAge`, the car is still
in the live set (the source culls only on the strict `age > maxAge`). -/
theorem car_age_equal_maxAge_survives :
    demoCar.age + 2 ≥ demoCar.maxAge ∧
    (updateCars rnd0 (some grid1) 1 0 2 ⟨[demoCar], 1, 5⟩).cars =
      [{ demoCar with age := 2 }] := by
  constructor
  · norm_num [demoCar]
  · rw [updateCars_paused rnd0 grid1 1 2 ⟨[demoCar], 1, 5⟩ (by norm_num)
      (fun i => by norm_num [rnd0])
      (by intro c hc; simp at hc; subst hc; norm_num [demoCar])]
    have hsp : carSpawnPhase rnd0 grid1 1 2 ⟨[demoCar], 1, 5⟩ =
        ([demoCar], 1, 5 - 2, 0) := by
      simp only [carSpawnPhase]
      rw [if_neg (by norm_num)]
    rw [hsp]
    simp only [List.filterMap]
    have hout : pausedCarOutcome grid1 1 2 demoCar =
        some { demoCar with age := 2 } := by
      have hroad : isRoadTile grid1 1 0 0 = true := by decide
      simp only [pausedCarOutcome, demoCar]
      norm_num
      decide
    simp [hout]

/-- A 2×2 grid with a single road tile at `(1, 0)` next to grass at
`(0, 0)`. -/
def strandedGrid : Grid := [[grassB, roadB], [grassB, grassB]]

/-- A car stranded on the grass tile of `strandedGrid`. -/
def strandedCar : Car :=
  { id := 0, tileX := 0, tileY := 0, direction := .south, progress := 0,
    speed := 1, age := 0, maxAge := 9, color := "#fff", laneOffset := 0 }

/-- Counterexample to relocate-or-cull for cars: a stranded car is
dropped by `updateCars` even though a valid road tile exists one cell
away (the car system never relocates). -/
theorem car_stranded_despawned_near_road :
    isRoadTile strandedGrid 2 1 0 = true ∧
    isRoadTile strandedGrid 2 strandedCar.tileX strandedCar.tileY =
      false ∧
    (updateCars rnd0 (some strandedGrid) 2 0 1 ⟨[strandedCar], 1, 5⟩).cars
      = [] := by
  refine ⟨by decide, by decide, ?_⟩
  rw [updateCars_paused rnd0 strandedGrid 2 1 ⟨[strandedCar], 1, 5⟩
    (by norm_num) (fun i => by norm_num [rnd0])
    (by intro c hc; simp at hc; subst hc; norm_num [strandedCar])]
  have hsp : carSpawnPhase rnd0 strandedGrid 2 1 ⟨[strandedCar], 1, 5⟩ =
      ([strandedCar], 1, 5 - 1, 0) := by
    simp only [carSpawnPhase]
    rw [if_neg (by norm_num)]
  rw [hsp]
  simp only [List.filterMap]
  have hout : pausedCarOutcome strandedGrid 2 1 strandedCar = none := by
    have hroad : isRoadTile strandedGrid 2 0 0 = false := by decide
    simp only [pausedCarOutcome, strandedCar]
    norm_num
    decide
  simp [hout]

/-! ## useAircraft.ts airplanes and trainSystem.ts trains : update gates -/

/-- `Airplane` (useAircraft.ts), with the fields set at spawn; the
contrail particle list is omitted (rendering only). -/
structure Airplane where
  id : Nat
  x : ℚ
  y : ℚ
  angle : ℚ
  state : String
  speed : ℚ
  altitude : ℚ
  targetAltitude : ℚ
  airportX : Int
  airportY : Int
  stateProgress : ℚ
  lifeTime : ℚ
  color : String
deriving Repr, DecidableEq

/-- The entry gate of `updateAirplanes` (useAircraft.ts): with an absent
grid, non-positive grid size or paused speed it returns immediately,
leaving the airplane list untouched.  The body after the gate only runs
otherwise and is abstracted as `rest`; the gate theorems hold for every
`rest`. -/
def updateAirplanes (gridOpt : Option Grid) (gridSize : Nat) (speed : Nat)
    (rest : List Airplane → List Airplane) (planes : List Airplane) :
    List Airplane :=
  if gridOpt.isNone ∨ gridSize = 0 ∨ speed = 0 then planes
  else rest planes

/-- `Train` of trainSystem.ts (the station-to-station trains). -/
structure TrainTS where
  id : Nat
  tileX : Int
  tileY : Int
  direction : CarDirection
  progress : ℚ
  speed : ℚ
  age : ℚ
  maxAge : ℚ
  color : String
  originStationX : Int
  originStationY : Int
  destStationX : Int
  destStationY : Int
  path : List (Int × Int)
  pathIndex : Nat
  carCount : Nat
deriving Repr, DecidableEq

/-- The entry gate of `updateTrains` (trainSystem.ts): below the zoom
threshold, or with an absent grid or non-positive grid size, the train
list is cleared; the body after the gate is abstracted as `rest`. -/
def updateTrainsTS (gridOpt : Option Grid) (gridSize : Nat)
    (zoom minZoom : ℚ) (rest : List TrainTS → List TrainTS)
    (trains : List TrainTS) : List TrainTS :=
  if zoom < minZoom then []
  else
    match gridOpt with
    | none => []
    | some _ => if gridSize = 0 then [] else rest trains

/-- A demonstration airplane. -/
def demoPlane : Airplane :=
  { id := 0, x := 0, y := 0, angle := 0, state := "flying", speed := 40,
    altitude := 1, targetAltitude := 1, airportX := 0, airportY := 0,
    stateProgress := 0, lifeTime := 30, color := "#fff" }

/-- Counterexample to "every manager clears its agent set on a missing
grid": the airplane manager returns with its set untouched (shown even
against a `rest` that would clear it). -/
theorem airplanes_not_cleared_on_missing_grid :
    updateAirplanes none 5 1 (fun _ => []) [demoPlane] = [demoPlane] ∧
    updateAirplanes none 5 1 (fun _ => []) [demoPlane] ≠ [] := by
  constructor
  · rfl
  · simp [updateAirplanes]

/-! ## gridVersion-keyed caches -/

/-- The road-count cache read of `updatePedestrians` (part_008): on a
version hit return the cached count, on a miss recount the grid and
refresh the cache. -/
def getRoadTileCountP8 (grid : Grid) (gridSize : Nat)
    (currentGridVersion : Int) (cache : CountCache) : Nat × CountCache :=
  if cache.gridVersion = currentGridVersion then (cache.count, cache)
  else
    let c := countRoadTiles grid gridSize
    (c, ⟨c, currentGridVersion⟩)

/-- `getPopulation` (useAircraft.ts): the population total, memoized by
grid version with recomputation on a miss. -/
def getPopulation (grid : Grid) (gridSize : Nat)
    (currentGridVersion : Int) (cache : CountCache) : Nat × CountCache :=
  if cache.gridVersion = currentGridVersion then (cache.count, cache)
  else
    let c := totalPopulation grid gridSize
    (c, ⟨c, currentGridVersion⟩)

/-- A rail tile. -/
def railB : Tile := ⟨⟨"rail", false, 0⟩⟩

/-- A 1×1 all-rail grid. -/
def railGrid1 : Grid := [[railB]]

/-- Counterexample to "on a version mismatch the aggregate is recomputed
so the count always equals the true aggregate": the part_006 train
spawn gate takes the rail count to be 0 on a stale cache, differing from
the true aggregate of the current grid. -/
theorem railCount_stale_cache_not_recomputed :
    railCountFromCacheP6 ⟨7, 0⟩ 1 = 0 ∧ countRailTiles railGrid1 1 = 1 ∧
    railCountFromCacheP6 ⟨7, 0⟩ 1 ≠ countRailTiles railGrid1 1 := by
  decide

/-! ## Pathfinding : `findPath` over a passable-surface predicate

Modelled from the spec: the pathfinder lives in the missing shared
`utils` module.  Per the spec it is a breadth-first search over passable
neighbours, visited-set guarded with no re-expansion, parameterized by
the tile predicate, returning the coordinate sequence from start to goal
or null; a start-equals-goal query returns a single-element path. -/

/-- A grid coordinate as produced by the pathfinder. -/
structure Coord where
  x : Int
  y : Int
deriving Repr, DecidableEq

/-- The four grid neighbours of a coordinate, in the sources' direction
order north, east, south, west. -/
def neighborsOf (c : Coord) : List Coord :=
  [⟨c.x - 1, c.y⟩, ⟨c.x, c.y - 1⟩, ⟨c.x + 1, c.y⟩, ⟨c.x, c.y + 1⟩]

/-- One BFS expansion: push every passable, not-yet-visited neighbour,
marking it visited at enqueue time (the visited-set guard). -/
def enqueueNeighbors (pass : Int → Int → Bool) (path : List Coord) :
    List Coord → List Coord → List (Coord × List Coord) →
      List Coord × List (Coord × List Coord)
  | [], vis, q => (vis, q)
  | nb :: rest, vis, q =>
    if pass nb.x nb.y ∧ nb ∉ vis then
      enqueueNeighbors pass path rest (vis ++ [nb]) (q ++ [(nb, nb :: path)])
    else enqueueNeighbors pass path rest vis q

/-- The BFS loop: dequeue, test for the goal, expand.  Queue entries
carry the reversed path from the start (head = current position). -/
def bfs (pass : Int → Int → Bool) (goal : Coord) :
    Nat → List Coord → List (Coord × List Coord) → Option (List Coord)
  | 0, _, _ => none
  | _ + 1, _, [] => none
  | fuel + 1, visited, (c, path) :: rest =>
    if c = goal then some path.reverse
    else
      let st2 := enqueueNeighbors pass path (neighborsOf c) visited rest
      bfs pass goal fuel st2.1 st2.2

/-- `findPath(grid, gridSize, startX, startY, goalX, goalY, surface)`:
non-passable endpoints yield null immediately (every tile of a returned
path must be of the surface kind); otherwise a BFS with fuel `N²+1`,
which the completeness proof shows is never exhausted. -/
def findPath (pass : Int → Int → Bool) (gridSize : Nat)
    (startX startY goalX goalY : Int) : Option (List Coord) :=
  if ¬ (pass startX startY ∧ pass goalX goalY) then none
  else
    bfs pass ⟨goalX, goalY⟩ (gridSize * gridSize + 1) [⟨startX, startY⟩]
      [(⟨startX, startY⟩, [⟨startX, startY⟩])]

/-- `findPathOnRoads` of the missing `utils` module. -/
def findPathOnRoads (grid : Grid) (gridSize : Nat)
    (startX startY goalX goalY : Int) : Option (List Coord) :=
  findPath (fun x y => isRoadTile grid gridSize x y) gridSize
    startX startY goalX goalY

/-- `findPathOnRails` of the missing `utils` module: the same search
parameterized by the rail predicate. -/
def findPathOnRails (grid : Grid) (gridSize : Nat)
    (startX startY goalX goalY : Int) : Option (List Coord) :=
  findPath (fun x y => isRailTile grid gridSize x y) gridSize
    startX startY goalX goalY

/-- One step of same-surface connectivity: `b` is a passable grid
neighbour of `a`. -/
def stepPass (pass : Int → Int → Bool) (a b : Coord) : Prop :=
  pass b.x b.y = true ∧ b ∈ neighborsOf a

/-- The in-bounds coordinates of an `n × n` grid, row by row. -/
def allCoords (n : Nat) : List Coord :=
  (List.range n).flatMap fun y =>
    (List.range n).map fun x => ⟨Int.ofNat x, Int.ofNat y⟩

theorem allCoords_length (n : Nat) : (allCoords n).length = n * n := by
  unfold allCoords
  rw [List.length_flatMap]
  have h1 : List.map (List.length ∘ fun y => List.map
      (fun x => (⟨Int.ofNat x, Int.ofNat y⟩ : Coord)) (List.range n))
      (List.range n) = List.replicate n n := by
    rw [List.eq_replicate]
    constructor
    · simp
    · intro b hb
      rw [List.mem_map] at hb
      obtain ⟨y, hy, hb2⟩ := hb
      subst hb2
      simp
  rw [h1, List.sum_replicate, smul_eq_mul]

theorem mem_allCoords {n : Nat} {c : Coord} :
    c ∈ allCoords n ↔
      0 ≤ c.x ∧ c.x < (n : Int) ∧ 0 ≤ c.y ∧ c.y < (n : Int) := by
  obtain ⟨cx, cy⟩ := c
  unfold allCoords
  rw [List.mem_flatMap]
  constructor
  · rintro ⟨y, hy, hc⟩
    rw [List.mem_map] at hc
    obtain ⟨x, hx, hc2⟩ := hc
    rw [List.mem_range] at hy hx
    obtain ⟨rfl, rfl⟩ := Coord.mk.injEq .. |>.mp hc2
    dsimp only
    simp only [Int.ofNat_eq_coe]
    omega
  · rintro ⟨h1, h2, h3, h4⟩
    dsimp only at h1 h2 h3 h4
    refine ⟨cy.toNat, List.mem_range.mpr (by omega), ?_⟩
    rw [List.mem_map]
    refine ⟨cx.toNat, List.mem_range.mpr (by omega), ?_⟩
    simp only [Coord.mk.injEq, Int.ofNat_eq_coe]
    omega

/-- A node of the queue together with the reversed path that leads to it
from the start: head is the node, last is the start, consecutive
elements are grid-adjacent and every element is passable. -/
def GoodEntry (pass : Int → Int → Bool) (s : Coord)
    (e : Coord × List Coord) : Prop :=
  e.2.head? = some e.1 ∧ e.2.getLast? = some s ∧
  List.Chain' (fun a b => a ∈ neighborsOf b) e.2 ∧
  ∀ c ∈ e.2, pass c.x c.y = true

theorem enqueueNeighbors_visited_subset (pass : Int → Int → Bool)
    (path : List Coord) :
    ∀ (nbs : List Coord) (vis : List Coord)
      (q : List (Coord × List Coord)) (x : Coord), x ∈ vis →
      x ∈ (enqueueNeighbors pass path nbs vis q).1 := by
  intro nbs
  induction nbs with
  | nil => intro vis q x hx; exact hx
  | cons nb rest ih =>
    intro vis q x hx
    simp only [enqueueNeighbors]
    split
    · exact ih _ _ x (by simp [hx])
    · exact ih _ _ x hx

theorem enqueueNeighbors_visited_mem (pass : Int → Int → Bool)
    (path : List Coord) :
    ∀ (nbs : List Coord) (vis : List Coord)
      (q : List (Coord × List Coord)) (x : Coord),
      x ∈ (enqueueNeighbors pass path nbs vis q).1 →
      x ∈ vis ∨ (x ∈ nbs ∧ pass x.x x.y = true) := by
  intro nbs
  induction nbs with
  | nil => intro vis q x hx; exact Or.inl hx
  | cons nb rest ih =>
    intro vis q x hx
    simp only [enqueueNeighbors] at hx
    split at hx
    · rename_i hcond
      rcases ih _ _ x hx with hx2 | hx2
      · simp only [List.mem_append, List.mem_singleton] at hx2
        rcases hx2 with hx3 | rfl
        · exact Or.inl hx3
        · exact Or.inr ⟨by simp, hcond.1⟩
      · exact Or.inr ⟨by simp [hx2.1], hx2.2⟩
    · rcases ih _ _ x hx with hx2 | hx2
      · exact Or.inl hx2
      · exact Or.inr ⟨by simp [hx2.1], hx2.2⟩

theorem enqueueNeighbors_nodup (pass : Int → Int → Bool)
    (path : List Coord) :
    ∀ (nbs : List Coord) (vis : List Coord)
      (q : List (Coord × List Coord)), vis.Nodup →
      (enqueueNeighbors pass path nbs vis q).1.Nodup := by
  intro nbs
  induction nbs with
  | nil => intro vis q h; exact h
  | cons nb rest ih =>
    intro vis q h
    simp only [enqueueNeighbors]
    split
    · rename_i hcond
      exact ih _ _ (by simp [List.nodup_append, h, hcond.2])
    · exact ih _ _ h

theorem enqueueNeighbors_closure (pass : Int → Int → Bool)
    (path : List Coord) :
    ∀ (nbs : List Coord) (vis : List Coord)
      (q : List (Coord × List Coord)) (nb : Coord), nb ∈ nbs →
      pass nb.x nb.y = true →
      nb ∈ (enqueueNeighbors pass path nbs vis q).1 := by
  intro nbs
  induction nbs with
  | nil => intro vis q nb h; simp at h
  | cons hd rest ih =>
    intro vis q nb hmem hpass
    simp only [List.mem_cons] at hmem
    simp only [enqueueNeighbors]
    rcases hmem with rfl | hmem
    · split
      · exact enqueueNeighbors_visited_subset pass path rest _ _ nb (by simp)
      · rename_i hcond
        have : nb ∈ vis := by
          by_contra hnv
          exact hcond ⟨hpass, hnv⟩
        exact enqueueNeighbors_visited_subset pass path rest _ _ nb this
    · split
      · exact ih _ _ nb hmem hpass
      · exact ih _ _ nb hmem hpass

theorem enqueueNeighbors_queue_mem (pass : Int → Int → Bool)
    (path : List Coord) :
    ∀ (nbs : List Coord) (vis : List Coord)
      (q : List (Coord × List Coord)) (e : Coord × List Coord),
      e ∈ (enqueueNeighbors pass path nbs vis q).2 →
      e ∈ q ∨ ∃ nb, nb ∈ nbs ∧ pass nb.x nb.y = true ∧
        e = (nb, nb :: path) := by
  intro nbs
  induction nbs with
  | nil => intro vis q e he; exact Or.inl he
  | cons nb rest ih =>
    intro vis q e he
    simp only [enqueueNeighbors] at he
    split at he
    · rename_i hcond
      rcases ih _ _ e he with he2 | ⟨nb2, h1, h2, h3⟩
      · simp only [List.mem_append, List.mem_singleton] at he2
        rcases he2 with he3 | rfl
        · exact Or.inl he3
        · exact Or.inr ⟨nb, by simp, hcond.1, rfl⟩
      · exact Or.inr ⟨nb2, by simp [h1], h2, h3⟩
    · rcases ih _ _ e he with he2 | ⟨nb2, h1, h2, h3⟩
      · exact Or.inl he2
      · exact Or.inr ⟨nb2, by simp [h1], h2, h3⟩

theorem enqueueNeighbors_queue_subset (pass : Int → Int → Bool)
    (path : List Coord) :
    ∀ (nbs : List Coord) (vis : List Coord)
      (q : List (Coord × List Coord)) (e : Coord × List Coord), e ∈ q →
      e ∈ (enqueueNeighbors pass path nbs vis q).2 := by
  intro nbs
  induction nbs with
  | nil => intro vis q e he; exact he
  | cons nb rest ih =>
    intro vis q e he
    simp only [enqueueNeighbors]
    split
    · exact ih _ _ e (by simp [he])
    · exact ih _ _ e he

theorem enqueueNeighbors_qpos (pass : Int → Int → Bool)
    (path : List Coord) :
    ∀ (nbs : List Coord) (vis : List Coord)
      (q : List (Coord × List Coord)),
      (∀ e ∈ q, e.1 ∈ vis) →
      ∀ e ∈ (enqueueNeighbors pass path nbs vis q).2,
        e.1 ∈ (enqueueNeighbors pass path nbs vis q).1 := by
  intro nbs
  induction nbs with
  | nil => intro vis q h e he; exact h e he
  | cons nb rest ih =>
    intro vis q h e he
    simp only [enqueueNeighbors] at he ⊢
    by_cases hcond : pass nb.x nb.y = true ∧ nb ∉ vis
    · rw [if_pos hcond] at he ⊢
      refine ih _ _ ?_ e he
      intro e2 he2
      simp only [List.mem_append, List.mem_singleton] at he2
      rcases he2 with he3 | rfl
      · simp [h e2 he3]
      · simp
    · rw [if_neg hcond] at he ⊢
      exact ih _ _ h e he

theorem enqueueNeighbors_new_queued (pass : Int → Int → Bool)
    (path : List Coord) :
    ∀ (nbs : List Coord) (vis : List Coord)
      (q : List (Coord × List Coord)) (x : Coord),
      x ∈ (enqueueNeighbors pass path nbs vis q).1 →
      x ∈ vis ∨ ∃ pth, (x, pth) ∈ (enqueueNeighbors pass path nbs vis q).2 := by
  intro nbs
  induction nbs with
  | nil => intro vis q x hx; exact Or.inl hx
  | cons nb rest ih =>
    intro vis q x hx
    simp only [enqueueNeighbors] at hx ⊢
    by_cases hcond : pass nb.x nb.y = true ∧ nb ∉ vis
    · rw [if_pos hcond] at hx ⊢
      rcases ih _ _ x hx with hx2 | ⟨pth, hpth⟩
      · simp only [List.mem_append, List.mem_singleton] at hx2
        rcases hx2 with hx3 | rfl
        · exact Or.inl hx3
        · exact Or.inr ⟨x :: path,
            enqueueNeighbors_queue_subset pass path rest _ _ _ (by simp)⟩
      · exact Or.inr ⟨pth, hpth⟩
    · rw [if_neg hcond] at hx ⊢
      rcases ih _ _ x hx with hx2 | ⟨pth, hpth⟩
      · exact Or.inl hx2
      · exact Or.inr ⟨pth, hpth⟩

theorem enqueueNeighbors_measure (pass : Int → Int → Bool)
    (path : List Coord) :
    ∀ (nbs : List Coord) (vis : List Coord)
      (q : List (Coord × List Coord)),
      (enqueueNeighbors pass path nbs vis q).2.length + vis.length =
        q.length + (enqueueNeighbors pass path nbs vis q).1.length := by
  intro nbs
  induction nbs with
  | nil => intro vis q; rfl
  | cons nb rest ih =>
    intro vis q
    simp only [enqueueNeighbors]
    split
    · have := ih (vis ++ [nb]) (q ++ [(nb, nb :: path)])
      simp only [List.length_append, List.length_singleton] at this
      omega
    · exact ih vis q

/-- Soundness of the BFS: any returned list is a start-to-goal sequence
of pairwise-adjacent passable coordinates. -/
theorem bfs_sound (pass : Int → Int → Bool) (s goal : Coord) :
    ∀ (fuel : Nat) (visited : List Coord)
      (queue : List (Coord × List Coord)),
      (∀ e ∈ queue, GoodEntry pass s e) →
      ∀ p, bfs pass goal fuel visited queue = some p →
        p.head? = some s ∧ p.getLast? = some goal ∧
        List.Chain' (fun a b => b ∈ neighborsOf a) p ∧
        ∀ c ∈ p, pass c.x c.y = true := by
  intro fuel
  induction fuel with
  | zero =>
    intro visited queue hq p hp
    simp [bfs] at hp
  | succ f ih =>
    intro visited queue hq p hp
    cases queue with
    | nil => simp [bfs] at hp
    | cons e rest =>
      obtain ⟨c, path⟩ := e
      simp only [bfs] at hp
      split at hp
      · rename_i hcg
        obtain ⟨hh, hl, hch, hmem⟩ := hq (c, path) (by simp)
        have hp2 := Option.some.inj hp
        subst hp2
        subst hcg
        refine ⟨?_, ?_, ?_, ?_⟩
        · rw [List.head?_reverse]
          exact hl
        · rw [List.getLast?_reverse]
          exact hh
        · rw [List.chain'_reverse]
          exact hch
        · intro x hx
          exact hmem x (List.mem_reverse.mp hx)
      · rename_i hcg
        refine ih _ _ ?_ p hp
        intro e2 he2
        rcases enqueueNeighbors_queue_mem pass path (neighborsOf c)
            visited rest e2 he2 with he3 | ⟨nb, hnb, hpass, rfl⟩
        · exact hq e2 (by simp [he3])
        · obtain ⟨hh, hl, hch, hmem⟩ := hq (c, path) (by simp)
          cases path with
          | nil => simp at hh
          | cons p0 ptl =>
            have hp0 : p0 = c := Option.some.inj hh
            subst hp0
            refine ⟨rfl, ?_, ?_, ?_⟩
            · rw [List.getLast?_cons_cons]
              exact hl
            · rw [List.chain'_cons]
              exact ⟨hnb, hch⟩
            · intro z hz
              rcases List.mem_cons.mp hz with rfl | hz2
              · exact hpass
              · exact hmem z hz2

/-- Helper: for lists of coordinates, a nodup list contained in another
list is no longer than it. -/
theorem length_le_of_nodup_subset {l L : List Coord} (hnd : l.Nodup)
    (hsub : ∀ x ∈ l, x ∈ L) : l.length ≤ L.length := by
  classical
  calc l.length = l.toFinset.card := (List.toFinset_card_of_nodup hnd).symm
    _ ≤ L.toFinset.card := Finset.card_le_card (fun x hx => by
        rw [List.mem_toFinset] at hx ⊢
        exact hsub x hx)
    _ ≤ L.length := L.toFinset_card_le

/-- Completeness of the BFS: when the search returns null with enough
fuel, no coordinate reachable through passable tiles from any visited
node is the goal. -/
theorem bfs_complete (pass : Int → Int → Bool) (n : Nat)
    (HB : ∀ x y : Int, pass x y = true →
      0 ≤ x ∧ x < (n : Int) ∧ 0 ≤ y ∧ y < (n : Int)) (goal : Coord) :
    ∀ (fuel : Nat) (visited : List Coord)
      (queue : List (Coord × List Coord)),
      visited.Nodup →
      (∀ v ∈ visited, v ∈ allCoords n) →
      queue.length + (n * n - visited.length) ≤ fuel →
      (∀ e ∈ queue, e.1 ∈ visited) →
      (∀ v ∈ visited, (∀ e ∈ queue, e.1 ≠ v) →
        v ≠ goal ∧ ∀ nb ∈ neighborsOf v, pass nb.x nb.y = true →
          nb ∈ visited) →
      bfs pass goal fuel visited queue = none →
      ∀ v ∈ visited, ∀ t, Relation.ReflTransGen (stepPass pass) v t →
        t ≠ goal := by
  have closedCase : ∀ (visited : List Coord),
      (∀ v ∈ visited, v ≠ goal ∧ ∀ nb ∈ neighborsOf v,
        pass nb.x nb.y = true → nb ∈ visited) →
      ∀ v ∈ visited, ∀ t, Relation.ReflTransGen (stepPass pass) v t →
        t ≠ goal := by
    intro visited hclosed v hv t ht
    have hmem : t ∈ visited ∧ t ≠ goal := by
      induction ht with
      | refl => exact ⟨hv, (hclosed v hv).1⟩
      | tail h1 h2 ih3 =>
        rename_i m t2
        obtain ⟨hm, _⟩ := ih3
        have ht2 : t2 ∈ visited := (hclosed m hm).2 t2 h2.2 h2.1
        exact ⟨ht2, (hclosed t2 ht2).1⟩
    exact hmem.2
  intro fuel
  induction fuel with
  | zero =>
    intro visited queue hnd hsub hfuel hqpos hclosed hnone
    have hq0 : queue = [] := List.length_eq_zero.mp (by omega)
    subst hq0
    exact closedCase visited (fun v hv => hclosed v hv (by simp))
  | succ f ih =>
    intro visited queue hnd hsub hfuel hqpos hclosed hnone
    cases queue with
    | nil =>
      exact closedCase visited (fun v hv => hclosed v hv (by simp))
    | cons e rest =>
      obtain ⟨c, path⟩ := e
      simp only [bfs] at hnone
      split at hnone
      · exact absurd hnone (by simp)
      · rename_i hcg
        have hcvis : c ∈ visited := hqpos (c, path) (by simp)
        have hnd2 := enqueueNeighbors_nodup pass path (neighborsOf c)
          visited rest hnd
        have hsub2 : ∀ v ∈ (enqueueNeighbors pass path (neighborsOf c)
            visited rest).1, v ∈ allCoords n := by
          intro v hvmem
          rcases enqueueNeighbors_visited_mem pass path (neighborsOf c)
              visited rest v hvmem with hv2 | ⟨_, hv3⟩
          · exact hsub v hv2
          · obtain ⟨b1, b2, b3, b4⟩ := HB v.x v.y hv3
            exact mem_allCoords.mpr ⟨b1, b2, b3, b4⟩
        have hlen2 : (enqueueNeighbors pass path (neighborsOf c)
            visited rest).1.length ≤ n * n := by
          have := length_le_of_nodup_subset hnd2 (fun x hx =>
            hsub2 x hx)
          rwa [allCoords_length] at this
        have hmeas := enqueueNeighbors_measure pass path (neighborsOf c)
          visited rest
        have hgrow : visited.length ≤ (enqueueNeighbors pass path
            (neighborsOf c) visited rest).1.length :=
          length_le_of_nodup_subset hnd (fun x hx =>
            enqueueNeighbors_visited_subset pass path (neighborsOf c)
              visited rest x hx)
        have hfuel2 : (enqueueNeighbors pass path (neighborsOf c) visited
            rest).2.length + (n * n - (enqueueNeighbors pass path
            (neighborsOf c) visited rest).1.length) ≤ f := by
          simp only [List.length_cons] at hfuel
          omega
        have hqpos2 := enqueueNeighbors_qpos pass path (neighborsOf c)
          visited rest (fun e2 he2 => hqpos e2 (by simp [he2]))
        have hclosed2 : ∀ v ∈ (enqueueNeighbors pass path (neighborsOf c)
            visited rest).1,
            (∀ e2 ∈ (enqueueNeighbors pass path (neighborsOf c) visited
              rest).2, e2.1 ≠ v) →
            v ≠ goal ∧ ∀ nb ∈ neighborsOf v, pass nb.x nb.y = true →
              nb ∈ (enqueueNeighbors pass path (neighborsOf c) visited
                rest).1 := by
          intro v hvmem hvq
          rcases enqueueNeighbors_new_queued pass path (neighborsOf c)
              visited rest v hvmem with hv2 | ⟨pth, hpth⟩
          · by_cases hvc : v = c
            · subst hvc
              refine ⟨hcg, ?_⟩
              intro nb hnb hpass
              exact enqueueNeighbors_closure pass path (neighborsOf v)
                visited rest nb hnb hpass
            · have hold := hclosed v hv2 ?_
              · refine ⟨hold.1, ?_⟩
                intro nb hnb hpass
                exact enqueueNeighbors_visited_subset pass path
                  (neighborsOf c) visited rest nb (hold.2 nb hnb hpass)
              · intro e2 he2
                rcases List.mem_cons.mp he2 with rfl | he3
                · simpa using fun hcv => hvc hcv.symm
                · exact hvq e2 (enqueueNeighbors_queue_subset pass path
                    (neighborsOf c) visited rest e2 he3)
          · exact absurd rfl (hvq (v, pth) hpth)
        intro v hv t ht
        exact ih _ _ hnd2 hsub2 hfuel2 hqpos2 hclosed2 hnone v
          (enqueueNeighbors_visited_subset pass path (neighborsOf c)
            visited rest v hv) t ht

/-- Soundness of `findPath`: a returned path starts at the start
coordinate, ends at the goal coordinate, steps between grid-adjacent
coordinates and stays on passable tiles. -/
theorem findPath_sound (pass : Int → Int → Bool) (gridSize : Nat)
    (sx sy gx gy : Int) (p : List Coord)
    (h : findPath pass gridSize sx sy gx gy = some p) :
    p.head? = some ⟨sx, sy⟩ ∧ p.getLast? = some ⟨gx, gy⟩ ∧
    List.Chain' (fun a b => b ∈ neighborsOf a) p ∧
    ∀ c ∈ p, pass c.x c.y = true := by
  simp only [findPath] at h
  split at h
  · exact absurd h (by simp)
  · rename_i hguard
    rw [not_not] at hguard
    refine bfs_sound pass ⟨sx, sy⟩ ⟨gx, gy⟩ _ _ _ ?_ p h
    intro e he
    rw [List.mem_singleton] at he
    subst he
    exact ⟨rfl, rfl, by simp, by simpa using hguard.1⟩

/-- Completeness of `findPath`: passable, same-surface-connected
endpoints always yield a path. -/
theorem findPath_complete (pass : Int → Int → Bool) (gridSize : Nat)
    (HB : ∀ x y : Int, pass x y = true →
      0 ≤ x ∧ x < (gridSize : Int) ∧ 0 ≤ y ∧ y < (gridSize : Int))
    (sx sy gx gy : Int)
    (hs : pass sx sy = true) (hg : pass gx gy = true)
    (hconn : Relation.ReflTransGen (stepPass pass) ⟨sx, sy⟩ ⟨gx, gy⟩) :
    ∃ p, findPath pass gridSize sx sy gx gy = some p := by
  cases hfp : findPath pass gridSize sx sy gx gy with
  | some p => exact ⟨p, rfl⟩
  | none =>
    exfalso
    simp only [findPath] at hfp
    rw [if_neg (by simp [hs, hg])] at hfp
    have hsmem : (⟨sx, sy⟩ : Coord) ∈ allCoords gridSize := by
      obtain ⟨b1, b2, b3, b4⟩ := HB sx sy hs
      exact mem_allCoords.mpr ⟨b1, b2, b3, b4⟩
    refine bfs_complete pass gridSize HB ⟨gx, gy⟩
      (gridSize * gridSize + 1) [⟨sx, sy⟩]
      [(⟨sx, sy⟩, [⟨sx, sy⟩])] (by simp) (by simpa using hsmem)
      (by simp; omega) (by simp) ?_ hfp ⟨sx, sy⟩ (by simp) ⟨gx, gy⟩
      hconn rfl
    intro v hv hq
    rw [List.mem_singleton] at hv
    subst hv
    exact absurd rfl (hq (⟨sx, sy⟩, [⟨sx, sy⟩]) (by simp))

/-- A valid coordinate path witnesses same-surface connectivity. -/
theorem chain_reaches (pass : Int → Int → Bool) :
    ∀ (p : List Coord) (s g : Coord),
      p.head? = some s → p.getLast? = some g →
      List.Chain' (fun a b => b ∈ neighborsOf a) p →
      (∀ c ∈ p, pass c.x c.y = true) →
      Relation.ReflTransGen (stepPass pass) s g := by
  intro p
  induction p with
  | nil => intro s g hh; simp at hh
  | cons a tl ih =>
    intro s g hh hl hch hmem
    have hs : a = s := Option.some.inj hh
    subst hs
    cases tl with
    | nil =>
      have : a = g := Option.some.inj (by simpa using hl)
      subst this
      exact Relation.ReflTransGen.refl
    | cons b tl2 =>
      rw [List.chain'_cons] at hch
      have hstep : stepPass pass a b := ⟨hmem b (by simp), hch.1⟩
      refine Relation.ReflTransGen.head hstep ?_
      refine ih b g rfl ?_ hch.2 (fun c hc => hmem c (by simp [hc]))
      rw [List.getLast?_cons_cons] at hl
      exact hl

/-- `findPath` returns null on endpoints that are not connected through
passable tiles. -/
theorem findPath_none_of_not_connected (pass : Int → Int → Bool)
    (gridSize : Nat) (sx sy gx gy : Int)
    (hnc : ¬ Relation.ReflTransGen (stepPass pass) ⟨sx, sy⟩ ⟨gx, gy⟩) :
    findPath pass gridSize sx sy gx gy = none := by
  cases hfp : findPath pass gridSize sx sy gx gy with
  | none => rfl
  | some p =>
    exfalso
    obtain ⟨hh, hl, hch, hmem⟩ := findPath_sound pass gridSize sx sy gx gy
      p hfp
    exact hnc (chain_reaches pass p _ _ hh hl hch hmem)

/-- A start-equals-goal query on a passable tile returns the
single-element path. -/
theorem findPath_self (pass : Int → Int → Bool) (gridSize : Nat)
    (sx sy : Int) (hs : pass sx sy = true) :
    findPath pass gridSize sx sy sx sy = some [⟨sx, sy⟩] := by
  simp only [findPath]
  rw [if_neg (by simp [hs])]
  simp [bfs]

/-- A road tile is always in bounds. -/
theorem isRoadTile_bounds (grid : Grid) (gridSize : Nat) (x y : Int)
    (h : isRoadTile grid gridSize x y = true) :
    0 ≤ x ∧ x < (gridSize : Int) ∧ 0 ≤ y ∧ y < (gridSize : Int) := by
  simp only [isRoadTile] at h
  split at h
  · simp at h
  · rename_i hb
    push_neg at hb
    exact ⟨hb.1, by omega, hb.2.1, by omega⟩

/-- A rail tile is always in bounds. -/
theorem isRailTile_bounds (grid : Grid) (gridSize : Nat) (x y : Int)
    (h : isRailTile grid gridSize x y = true) :
    0 ≤ x ∧ x < (gridSize : Int) ∧ 0 ≤ y ∧ y < (gridSize : Int) := by
  simp only [isRailTile] at h
  split at h
  · simp at h
  · rename_i hb
    push_neg at hb
    exact ⟨hb.1, by omega, hb.2.1, by omega⟩

/-! ## part_008 pedestrian system -/

/-- `Pedestrian` from the shared types module, with the fields used by
the pedestrian system; `sidewalkLeft` stands for the
`sidewalkSide : 'left' | 'right'` tag. -/
structure Pedestrian where
  id : Nat
  tileX : Int
  tileY : Int
  direction : CarDirection
  progress : ℚ
  speed : ℚ
  pathIndex : Nat
  age : ℚ
  maxAge : ℚ
  skinColor : String
  shirtColor : String
  walkOffset : ℚ
  sidewalkLeft : Bool
  destType : String
  homeX : Int
  homeY : Int
  destX : Int
  destY : Int
  returningHome : Bool
  path : List Coord
deriving Repr, DecidableEq

/-- Modelled from the spec: `findResidentialBuildings` (the missing
`gridFinders` module): the residential tiles of the grid. -/
def findResidentialBuildings (grid : Grid) (gridSize : Nat) :
    List Coord :=
  (allCoords gridSize).filter fun c =>
    tileTypeAt grid c.x c.y == some "residential"

/-- Modelled from the spec: `findPedestrianDestinations` (the missing
`gridFinders` module): amenity tiles a pedestrian may walk to, tagged
with their kind. -/
def findPedestrianDestinations (grid : Grid) (gridSize : Nat) :
    List (Coord × String) :=
  (allCoords gridSize).filterMap fun c =>
    match tileTypeAt grid c.x c.y with
    | some t =>
      if t = "commercial" ∨ t = "park" ∨ t = "school" ∨ t = "hospital"
      then some (c, t) else none
    | none => none

/-- Modelled from the spec: pedestrian colour palettes (missing
`constants` module); contents arbitrary, chosen at spawn only. -/
def pedSkinColors : List String := ["#f2d3b3", "#caa472", "#8c5a33"]

def pedShirtColors : List String :=
  ["#dc2626", "#2563eb", "#16a34a", "#ca8a04"]

/-- Rational placeholder for `2 * Math.PI` in the cosmetic walk-cycle
phase (π is irrational; the phase affects rendering only). -/
def twoPiQ : ℚ := 2 * (355 / 113)

/-- `spawnPedestrian` (part_008): pick a home and an amenity, path
between them on roads, drop the pedestrian at a random index of the
path.  `k` indexes the random stream; one draw per `Math.random()` in
source order. -/
def spawnPedestrian (grid : Grid) (gridSize : Nat) (rnd : Nat → ℚ)
    (k : Nat) (pid : Nat) : Option Pedestrian × Nat :=
  let residentials := findResidentialBuildings grid gridSize
  if residentials.length = 0 then (none, k)
  else
    let destinations := findPedestrianDestinations grid gridSize
    if destinations.length = 0 then (none, k)
    else
      let home := pickRandom residentials (rnd k) ⟨0, 0⟩
      let dest := pickRandom destinations (rnd (k + 1)) (⟨0, 0⟩, "")
      match findPathOnRoads grid gridSize home.x home.y dest.1.x
        dest.1.y with
      | none => (none, k + 2)
      | some path =>
        if path.length = 0 then (none, k + 2)
        else
          let startIndex := Int.toNat ⌊rnd (k + 2) * (path.length : ℚ)⌋
          let startTile := path.getD startIndex ⟨0, 0⟩
          let nextT := path.getD (startIndex + 1) ⟨0, 0⟩
          let prevT := path.getD (startIndex - 1) ⟨0, 0⟩
          let direction : CarDirection :=
            if startIndex + 1 < path.length then
              match getDirectionToTile startTile.x startTile.y nextT.x
                nextT.y with
              | some d => d
              | none => .south
            else if startIndex > 0 then
              match getDirectionToTile prevT.x prevT.y startTile.x
                startTile.y with
              | some d => d
              | none => .south
            else .south
          (some
            { id := pid
              tileX := startTile.x
              tileY := startTile.y
              direction := direction
              progress := rnd (k + 3)
              speed := 3 / 25 + rnd (k + 4) * (2 / 25)
              pathIndex := startIndex
              age := 0
              maxAge := 60 + rnd (k + 5) * 90
              skinColor := pickRandom pedSkinColors (rnd (k + 6)) ""
              shirtColor := pickRandom pedShirtColors (rnd (k + 7)) ""
              walkOffset := rnd (k + 8) * twoPiQ
              sidewalkLeft := rnd (k + 9) < 1 / 2
              destType := dest.2
              homeX := home.x
              homeY := home.y
              destX := dest.1.x
              destY := dest.1.y
              returningHome := startIndex + 1 ≥ path.length
              path := path }, k + 10)

/-- The turn-around repath of `updatePedestrians` (part_008): flag the
return trip and walk the fresh destination-to-home path; `setTile`
distinguishes the two source sites (the in-loop one leaves `tileX,
tileY` as they are). -/
def pedTryReturn (grid : Grid) (gridSize : Nat) (setTile : Bool)
    (p0 : Pedestrian) : Option Pedestrian :=
  let p := { p0 with returningHome := true }
  match findPathOnRoads grid gridSize p.destX p.destY p.homeX
    p.homeY with
  | some rp =>
    if rp.length > 0 then
      let hd := rp.getD 0 ⟨0, 0⟩
      let dir : CarDirection :=
        if rp.length > 1 then
          match getDirectionToTile hd.x hd.y (rp.getD 1 ⟨0, 0⟩).x
            (rp.getD 1 ⟨0, 0⟩).y with
          | some d => d
          | none => p.direction
        else p.direction
      if setTile then
        some
          { p with
            path := rp
            pathIndex := 0
            progress := 0
            tileX := hd.x
            tileY := hd.y
            direction := dir }
      else
        some
          { p with
            path := rp
            pathIndex := 0
            progress := 0
            direction := dir }
    else none
  | none => none

/-- The boundary-crossing while loop of `updatePedestrians` (part_008):
`while (progress >= 1 && pathIndex < path.length - 1)`.  The fuel is the
path length, which the loop can never exhaust since `pathIndex` grows
every iteration. -/
def pedLoop (grid : Grid) (gridSize : Nat) :
    Nat → Pedestrian → Option Pedestrian
  | 0, p => some p
  | fuel + 1, p =>
    if p.progress ≥ 1 ∧ p.pathIndex < p.path.length - 1 then
      let p1 :=
        { p with pathIndex := p.pathIndex + 1, progress := p.progress - 1 }
      let currentTile : Coord := p1.path.getD p1.pathIndex ⟨0, 0⟩
      if currentTile.x < 0 ∨ currentTile.x ≥ (gridSize : Int) ∨
          currentTile.y < 0 ∨ currentTile.y ≥ (gridSize : Int) then
        none
      else
        let p2 := { p1 with tileX := currentTile.x, tileY := currentTile.y }
        if p2.pathIndex ≥ p2.path.length - 1 then
          if ¬ p2.returningHome then pedTryReturn grid gridSize false p2
          else none
        else
          let p3 :=
            match getDirectionToTile p2.tileX p2.tileY
              (p2.path.getD (p2.pathIndex + 1) ⟨0, 0⟩).x
              (p2.path.getD (p2.pathIndex + 1) ⟨0, 0⟩).y with
            | some d => { p2 with direction := d }
            | none => p2
          pedLoop grid gridSize fuel p3
    else some p

/-- The per-pedestrian body of `updatePedestrians` (part_008). -/
def updatePedStep (grid : Grid) (gridSize : Nat)
    (speedMultiplier delta : ℚ) (p0 : Pedestrian) : Option Pedestrian :=
  let pa := { p0 with age := p0.age + delta }
  if pa.age > pa.maxAge then none
  else
    let pw := { pa with walkOffset := pa.walkOffset + delta * 8 }
    if ¬ isRoadTile grid gridSize pw.tileX pw.tileY then none
    else
      let pp := { pw with
        progress := pw.progress + pw.speed * delta * speedMultiplier }
      let step1 : Option Pedestrian :=
        if pp.path.length = 1 ∧ pp.progress ≥ 1 then
          if ¬ pp.returningHome then pedTryReturn grid gridSize true pp
          else none
        else some pp
      match step1 with
      | none => none
      | some p1 =>
        match pedLoop grid gridSize p1.path.length p1 with
        | none => none
        | some p2 =>
          if p2.progress ≥ 1 ∧ p2.pathIndex ≥ p2.path.length - 1 then
            if ¬ p2.returningHome then pedTryReturn grid gridSize true p2
            else none
          else some p2

/-- The surviving-pedestrian loop of `updatePedestrians`. -/
def movePeds (grid : Grid) (gridSize : Nat)
    (speedMultiplier delta : ℚ) : List Pedestrian → List Pedestrian
  | [] => []
  | p :: rest =>
    match updatePedStep grid gridSize speedMultiplier delta p with
    | some p2 => p2 :: movePeds grid gridSize speedMultiplier delta rest
    | none => movePeds grid gridSize speedMultiplier delta rest

/-- The batch spawn loop of `updatePedestrians`: up to `b` attempts,
counting successes.  Returns the spawned pedestrians (in order), the
success count, the next id and the next random index. -/
def spawnPedBatch (grid : Grid) (gridSize : Nat) (rnd : Nat → ℚ) :
    Nat → Nat → Nat → List Pedestrian × Nat × Nat × Nat
  | 0, k, pid => ([], 0, pid, k)
  | b + 1, k, pid =>
    match spawnPedestrian grid gridSize rnd k pid with
    | (some p, k2) =>
      let rest := spawnPedBatch grid gridSize rnd b k2 (pid + 1)
      (p :: rest.1, rest.2.1 + 1, rest.2.2.1, rest.2.2.2)
    | (none, k2) => spawnPedBatch grid gridSize rnd b k2 pid

/-- The private state of the pedestrian manager. -/
structure PedState where
  peds : List Pedestrian
  nextId : Nat
  spawnTimer : ℚ
  cache : CountCache
deriving Repr, DecidableEq

/-- The spawn phase of `updatePedestrians` (part_008): capacity ceiling
from the road-tile count, countdown timer gate, a burst of spawn
attempts and the randomized timer reset. -/
def pedSpawnPhase (rnd : Nat → ℚ) (grid : Grid) (gridSize : Nat)
    (roadTileCount : Nat) (isMobile : Bool) (delta : ℚ) (st : PedState) :
    List Pedestrian × Nat × ℚ :=
  let maxPedestrians :=
    if isMobile then min 50 (max 20 (4 * roadTileCount / 5))
    else max 200 (roadTileCount * 3)
  let timer1 := st.spawnTimer - delta
  if st.peds.length < maxPedestrians ∧ timer1 ≤ 0 then
    let spawnBatch :=
      if isMobile then min 8 (max 3 (roadTileCount / 25))
      else min 50 (max 20 (roadTileCount / 10))
    let batch := spawnPedBatch grid gridSize rnd spawnBatch 0 st.nextId
    let timer2 : ℚ :=
      if batch.2.1 > 0 then (if isMobile then 3 / 20 else 1 / 50)
      else (if isMobile then 2 / 25 else 1 / 100)
    (st.peds ++ batch.1, batch.2.2.1, timer2)
  else (st.peds, st.nextId, timer1)

/-- `updatePedestrians` from part_008: zoom and grid gates, road-count
cache read, spawn batch, then the per-pedestrian update including any
pedestrian spawned this frame. -/
def updatePedestrians (rnd : Nat → ℚ) (gridOpt : Option Grid)
    (gridSize : Nat) (speed : Nat) (zoom minZoom : ℚ) (gridVersion : Int)
    (isMobile : Bool) (delta : ℚ) (st : PedState) : PedState :=
  if zoom < minZoom then { st with peds := [] }
  else
    match gridOpt with
    | none => { st with peds := [] }
    | some grid =>
      if gridSize = 0 then { st with peds := [] }
      else
        let speedMultiplier := carSpeedMultiplier speed
        let rc := getRoadTileCountP8 grid gridSize gridVersion st.cache
        let sp := pedSpawnPhase rnd grid gridSize rc.1 isMobile delta st
        { peds := movePeds grid gridSize speedMultiplier delta sp.1,
          nextId := sp.2.1,
          spawnTimer := sp.2.2,
          cache := rc.2 }

/-- A successful turn-around repath always resets progress to 0. -/
theorem pedTryReturn_progress (grid : Grid) (gridSize : Nat)
    (setTile : Bool) (p0 p2 : Pedestrian)
    (h : pedTryReturn grid gridSize setTile p0 = some p2) :
    p2.progress = 0 := by
  simp only [pedTryReturn] at h
  split at h
  · split at h
    · split at h
      · cases h
        rfl
      · cases h
        rfl
    · exact absurd h (by simp)
  · exact absurd h (by simp)

/-- The pedestrian crossing loop keeps progress nonnegative. -/
theorem pedLoop_nonneg (grid : Grid) (gridSize : Nat) :
    ∀ (fuel : Nat) (p p2 : Pedestrian), 0 ≤ p.progress →
      pedLoop grid gridSize fuel p = some p2 → 0 ≤ p2.progress := by
  intro fuel
  induction fuel with
  | zero =>
    intro p p2 h0 h
    cases Option.some.inj h
    exact h0
  | succ f ih =>
    intro p p2 h0 h
    simp only [pedLoop] at h
    split at h
    · rename_i hcond
      split at h
      · exact absurd h (by simp)
      · split at h
        · split at h
          · rw [pedTryReturn_progress grid gridSize false _ p2 h]
          · exact absurd h (by simp)
        · refine ih _ p2 ?_ h
          split <;> simpa using sub_nonneg.mpr hcond.1
    · cases Option.some.inj h
      exact h0

/-- With fuel at least the remaining path length, the pedestrian
crossing loop never returns a state still requiring a crossing. -/
theorem pedLoop_exit (grid : Grid) (gridSize : Nat) :
    ∀ (fuel : Nat) (p p2 : Pedestrian),
      p.path.length - p.pathIndex ≤ fuel →
      pedLoop grid gridSize fuel p = some p2 →
      ¬(1 ≤ p2.progress ∧ p2.pathIndex < p2.path.length - 1) := by
  intro fuel
  induction fuel with
  | zero =>
    intro p p2 hf h
    cases Option.some.inj h
    intro hcon
    omega
  | succ f ih =>
    intro p p2 hf h
    simp only [pedLoop] at h
    split at h
    · rename_i hcond
      split at h
      · exact absurd h (by simp)
      · split at h
        · split at h
          · have := pedTryReturn_progress grid gridSize false _ p2 h
            intro hcon
            rw [this] at hcon
            exact absurd hcon.1 (by norm_num)
          · exact absurd h (by simp)
        · refine ih _ p2 ?_ h
          split <;> · dsimp only; omega
    · rename_i hcond
      cases Option.some.inj h
      exact hcond

/-- A part_008 pedestrian standing on a tile that is no longer road is
dropped without any relocation attempt. -/
theorem updatePedStep_offRoad (grid : Grid) (gridSize : Nat)
    (speedMultiplier delta : ℚ) (p0 : Pedestrian)
    (hoff : isRoadTile grid gridSize p0.tileX p0.tileY = false) :
    updatePedStep grid gridSize speedMultiplier delta p0 = none := by
  simp only [updatePedStep]
  by_cases hage : p0.age + delta > p0.maxAge
  · rw [if_pos (by simpa using hage)]
  · rw [if_neg (by simpa using hage)]
    rw [if_pos (by simpa using hoff)]

/-- A surviving pedestrian ends its update with progress in `[0, 1)`. -/
theorem updatePedStep_progress (grid : Grid) (gridSize : Nat)
    (speedMultiplier delta : ℚ) (p0 : Pedestrian)
    (h0 : 0 ≤ p0.progress)
    (hadv : 0 ≤ p0.speed * delta * speedMultiplier) :
    ∀ p2, updatePedStep grid gridSize speedMultiplier delta p0 = some p2 →
      0 ≤ p2.progress ∧ p2.progress < 1 := by
  intro p2 h
  simp only [updatePedStep] at h
  split at h
  · exact absurd h (by simp)
  · split at h
    · exact absurd h (by simp)
    · -- the step1 value
      have hstep : ∀ p1, (0 ≤ p1.progress) →
          (match pedLoop grid gridSize p1.path.length p1 with
            | none => none
            | some q2 =>
              if q2.progress ≥ 1 ∧ q2.pathIndex ≥ q2.path.length - 1 then
                if ¬ q2.returningHome then pedTryReturn grid gridSize true q2
                else none
              else some q2) = some p2 →
          0 ≤ p2.progress ∧ p2.progress < 1 := by
        intro p1 hp1 hm
        cases hpl : pedLoop grid gridSize p1.path.length p1 with
        | none => rw [hpl] at hm; exact absurd hm (by simp)
        | some q2 =>
          rw [hpl] at hm
          dsimp only at hm
          have hq0 := pedLoop_nonneg grid gridSize _ p1 q2 hp1 hpl
          have hexit := pedLoop_exit grid gridSize _ p1 q2 (by omega) hpl
          split at hm
          · rename_i hge
            split at hm
            · have := pedTryReturn_progress grid gridSize true q2 p2 hm
              rw [this]
              norm_num
            · exact absurd hm (by simp)
          · rename_i hge
            cases Option.some.inj hm
            refine ⟨hq0, ?_⟩
            by_contra hnot
            push_neg at hnot
            rw [not_and_or] at hge
            rcases hge with hge | hge
            · exact hge hnot
            · exact hexit ⟨hnot, by omega⟩
      split at h
      · exact absurd h (by simp)
      · rename_i p1 heq
        refine hstep p1 ?_ h
        split at heq
        · split at heq
          · rw [pedTryReturn_progress grid gridSize true _ p1 heq]
          · exact absurd heq (by simp)
        · cases Option.some.inj heq
          simpa using add_nonneg h0 hadv

/-- The pedestrian survivors loop keeps progress inside `[0, 1)`. -/
theorem movePeds_progress (grid : Grid) (gridSize : Nat)
    (speedMultiplier delta : ℚ)
    (hd0 : 0 ≤ delta) (hm0 : 0 ≤ speedMultiplier) :
    ∀ (peds : List Pedestrian),
      (∀ p ∈ peds, 0 ≤ p.progress ∧ 0 ≤ p.speed) →
      ∀ p2 ∈ movePeds grid gridSize speedMultiplier delta peds,
        0 ≤ p2.progress ∧ p2.progress < 1 := by
  intro peds
  induction peds with
  | nil => intro h p2 hp2; simp [movePeds] at hp2
  | cons p rest ih =>
    intro h p2 hp2
    obtain ⟨h1, h2⟩ := h p (by simp)
    have hrest : ∀ x ∈ rest, 0 ≤ x.progress ∧ 0 ≤ x.speed :=
      fun x hx => h x (by simp [hx])
    simp only [movePeds] at hp2
    cases hstep : updatePedStep grid gridSize speedMultiplier delta p with
    | some p3 =>
      rw [hstep] at hp2
      rcases List.mem_cons.mp hp2 with rfl | hp3
      · exact updatePedStep_progress grid gridSize speedMultiplier delta p
          h1 (mul_nonneg (mul_nonneg h2 hd0) hm0) p2 hstep
      · exact ih hrest p2 hp3
    | none =>
      rw [hstep] at hp2
      exact ih hrest p2 hp2

/-- A freshly spawned pedestrian has progress in `[0, 1)` and
nonnegative speed when the random draws are genuine. -/
theorem spawnPedestrian_bounds (grid : Grid) (gridSize : Nat)
    (rnd : Nat → ℚ) (hr : ∀ i, 0 ≤ rnd i ∧ rnd i < 1) (k pid : Nat)
    (p : Pedestrian) (k2 : Nat)
    (h : spawnPedestrian grid gridSize rnd k pid = (some p, k2)) :
    0 ≤ p.progress ∧ p.progress < 1 ∧ 0 ≤ p.speed := by
  simp only [spawnPedestrian] at h
  split at h
  · exact absurd (congrArg Prod.fst h) (by simp)
  · split at h
    · exact absurd (congrArg Prod.fst h) (by simp)
    · split at h
      · exact absurd (congrArg Prod.fst h) (by simp)
      · split at h
        · exact absurd (congrArg Prod.fst h) (by simp)
        · have hp := Option.some.inj (congrArg Prod.fst h)
          subst hp
          obtain ⟨h3a, h3b⟩ := hr (k + 3)
          obtain ⟨h4a, h4b⟩ := hr (k + 4)
          refine ⟨h3a, h3b, ?_⟩
          dsimp only
          nlinarith

/-- Every pedestrian produced by the batch spawn satisfies the spawn
bounds. -/
theorem spawnPedBatch_bounds (grid : Grid) (gridSize : Nat)
    (rnd : Nat → ℚ) (hr : ∀ i, 0 ≤ rnd i ∧ rnd i < 1) :
    ∀ (b k pid : Nat) (p : Pedestrian),
      p ∈ (spawnPedBatch grid gridSize rnd b k pid).1 →
      0 ≤ p.progress ∧ p.progress < 1 ∧ 0 ≤ p.speed := by
  intro b
  induction b with
  | zero => intro k pid p hp; simp [spawnPedBatch] at hp
  | succ b2 ih =>
    intro k pid p hp
    simp only [spawnPedBatch] at hp
    split at hp
    · rename_i p2 k2 hsp
      rcases List.mem_cons.mp hp with rfl | hp2
      · exact spawnPedestrian_bounds grid gridSize rnd hr k pid p k2 hsp
      · exact ih k2 (pid + 1) p hp2
    · rename_i k2 hsp
      exact ih k2 pid p hp

/-- Pedestrians in the spawn-phase list are either carried over or came
from the batch spawner. -/
theorem pedSpawnPhase_mem (rnd : Nat → ℚ) (grid : Grid) (gridSize : Nat)
    (roadTileCount : Nat) (isMobile : Bool) (delta : ℚ) (st : PedState) :
    ∀ x ∈ (pedSpawnPhase rnd grid gridSize roadTileCount isMobile delta
        st).1,
      x ∈ st.peds ∨ ∃ b k pid,
        x ∈ (spawnPedBatch grid gridSize rnd b k pid).1 := by
  intro x hx
  unfold pedSpawnPhase at hx
  cases isMobile with
  | false =>
    simp only [Bool.false_eq_true, if_false] at hx
    split at hx
    · simp only [List.mem_append] at hx
      rcases hx with hx | hx
      · exact Or.inl hx
      · exact Or.inr ⟨_, _, _, hx⟩
    · exact Or.inl hx
  | true =>
    simp only [if_true] at hx
    split at hx
    · simp only [List.mem_append] at hx
      rcases hx with hx | hx
      · exact Or.inl hx
      · exact Or.inr ⟨_, _, _, hx⟩
    · exact Or.inl hx

/-- After a pedestrian update, every live pedestrian's progress is in
`[0, 1)`. -/
theorem updatePedestrians_progress (rnd : Nat → ℚ) (gridOpt : Option Grid)
    (gridSize : Nat) (speed : Nat) (zoom minZoom : ℚ) (gridVersion : Int)
    (isMobile : Bool) (delta : ℚ) (st : PedState)
    (hr : ∀ i, 0 ≤ rnd i ∧ rnd i < 1) (hd0 : 0 ≤ delta)
    (hpeds : ∀ p ∈ st.peds, 0 ≤ p.progress ∧ 0 ≤ p.speed) :
    ∀ p2 ∈ (updatePedestrians rnd gridOpt gridSize speed zoom minZoom
        gridVersion isMobile delta st).peds,
      0 ≤ p2.progress ∧ p2.progress < 1 := by
  intro p2 hp2
  obtain ⟨hm0, _⟩ := carSpeedMultiplier_bounds speed
  simp only [updatePedestrians] at hp2
  split at hp2
  · simp at hp2
  · cases gridOpt with
    | none => simp at hp2
    | some grid =>
      dsimp only at hp2
      by_cases hgz : gridSize = 0
      · rw [if_pos hgz] at hp2
        simp at hp2
      · rw [if_neg hgz] at hp2
        dsimp only at hp2
        refine movePeds_progress grid gridSize _ delta hd0 hm0 _ ?_ p2 hp2
        intro x hx
        rcases pedSpawnPhase_mem rnd grid gridSize _ isMobile delta st x
            hx with hx2 | ⟨b, k, pid, hx2⟩
        · exact hpeds x hx2
        · obtain ⟨a, _, c⟩ := spawnPedBatch_bounds grid gridSize rnd hr
            b k pid x hx2
          exact ⟨a, c⟩

theorem pickRandom_zero {α : Type} (l : List α) (d : α) :
    pickRandom l 0 d = l.headD d := by
  simp only [pickRandom, zero_mul, Int.floor_zero, Int.toNat_zero]
  cases l <;> simp

/-- A 1×7 horizontal road strip (row 0 of a size-7 grid). -/
def rowGrid : Grid := [List.replicate 7 roadB]

/-- A car about to need five boundary crossings in one update. -/
def fastCar : Car :=
  { id := 0, tileX := 0, tileY := 0, direction := .south, progress := 0,
    speed := 1, age := 0, maxAge := 100, color := "#fff", laneOffset := 0 }

theorem pickSouth_on_row (x : Int) (hx : x = 1 ∨ x = 2 ∨ x = 3 ∨ x = 4) :
    pickNextDirection 0 .south rowGrid 7 x 0 = some .south := by
  have hopts : getDirectionOptions rowGrid 7 x 0 =
      [CarDirection.north, .south] := by
    rcases hx with rfl | rfl | rfl | rfl <;> decide
  simp only [pickNextDirection, hopts]
  have hfil : ([CarDirection.north, .south].filter
      fun d => d ≠ getOppositeDirection .south) = [CarDirection.south] := by
    decide
  rw [hfil]
  simp [pickRandom_zero]

set_option maxHeartbeats 4000000 in
/-- Counterexample to progress normalization: after one `updateCars`
call with a delta requiring five crossings, the surviving car retains
progress 2 (the guarded crossing loop gives up after four
iterations). -/
theorem car_progress_overshoot_after_update :
    (updateCars rnd0 (some rowGrid) 7 1 6 ⟨[fastCar], 1, 99⟩).cars =
      [{ fastCar with tileX := 4, age := 6, progress := 2 }] ∧
    ¬(({ fastCar with tileX := 4, age := 6, progress := 2 } : Car).progress
      < 1) := by
  constructor
  · norm_num +decide [updateCars, carSpawnPhase, spawnRandomCar, moveCars,
      updateCarStep, carCrossings, pickNextDirection, getDirectionOptions,
      getOppositeDirection, dirStep, pickRandom, isRoadTile, tileTypeAt,
      rowGrid, roadB, fastCar, rnd0, carSpeedMultiplier, List.filter,
      List.replicate]
  · norm_num

/-- Witness for the amended phase-exclusivity theorem at a concrete
cross intersection (the plus grid's centre) and a concrete state. -/
theorem cross_axes_never_both_green_witness :
    (analyzeRoadNetwork plusGrid 3 1 1).intersectionType = .cross ∧
    ¬(((updateTrafficLightState ⟨.red, .red, .red, .red, 0, 0⟩
          (analyzeRoadNetwork plusGrid 3 1 1) 0).north = .green ∨
       (updateTrafficLightState ⟨.red, .red, .red, .red, 0, 0⟩
          (analyzeRoadNetwork plusGrid 3 1 1) 0).south = .green) ∧
      ((updateTrafficLightState ⟨.red, .red, .red, .red, 0, 0⟩
          (analyzeRoadNetwork plusGrid 3 1 1) 0).east = .green ∨
       (updateTrafficLightState ⟨.red, .red, .red, .red, 0, 0⟩
          (analyzeRoadNetwork plusGrid 3 1 1) 0).west = .green)) :=
  ⟨by decide,
    (cross_axes_never_both_green ⟨.red, .red, .red, .red, 0, 0⟩
      (analyzeRoadNetwork plusGrid 3 1 1) 0 (by decide)).2⟩

/-! ## Claim-level theorems -/

/-- C1: the pathfinder contract, for both surface kinds.  A returned
path starts at the start coordinate, ends at the goal coordinate, has
grid-adjacent consecutive elements, and every element is of the
required surface kind; connected passable endpoints always yield a
path; disconnected endpoints yield null; a start-equals-goal query on a
passable tile returns the single-element path. -/
theorem findPath_road_rail_spec (grid : Grid) (gridSize : Nat)
    (sx sy gx gy : Int) :
    (∀ p, findPathOnRoads grid gridSize sx sy gx gy = some p →
      p.head? = some ⟨sx, sy⟩ ∧ p.getLast? = some ⟨gx, gy⟩ ∧
      List.Chain' (fun a b => b ∈ neighborsOf a) p ∧
      ∀ c ∈ p, isRoadTile grid gridSize c.x c.y = true) ∧
    (isRoadTile grid gridSize sx sy = true →
      isRoadTile grid gridSize gx gy = true →
      Relation.ReflTransGen
        (stepPass fun x y => isRoadTile grid gridSize x y)
        ⟨sx, sy⟩ ⟨gx, gy⟩ →
      ∃ p, findPathOnRoads grid gridSize sx sy gx gy = some p) ∧
    (¬ Relation.ReflTransGen
        (stepPass fun x y => isRoadTile grid gridSize x y)
        ⟨sx, sy⟩ ⟨gx, gy⟩ →
      findPathOnRoads grid gridSize sx sy gx gy = none) ∧
    (isRoadTile grid gridSize sx sy = true →
      findPathOnRoads grid gridSize sx sy sx sy = some [⟨sx, sy⟩]) ∧
    (∀ p, findPathOnRails grid gridSize sx sy gx gy = some p →
      p.head? = some ⟨sx, sy⟩ ∧ p.getLast? = some ⟨gx, gy⟩ ∧
      List.Chain' (fun a b => b ∈ neighborsOf a) p ∧
      ∀ c ∈ p, isRailTile grid gridSize c.x c.y = true) ∧
    (isRailTile grid gridSize sx sy = true →
      isRailTile grid gridSize gx gy = true →
      Relation.ReflTransGen
        (stepPass fun x y => isRailTile grid gridSize x y)
        ⟨sx, sy⟩ ⟨gx, gy⟩ →
      ∃ p, findPathOnRails grid gridSize sx sy gx gy = some p) ∧
    (¬ Relation.ReflTransGen
        (stepPass fun x y => isRailTile grid gridSize x y)
        ⟨sx, sy⟩ ⟨gx, gy⟩ →
      findPathOnRails grid gridSize sx sy gx gy = none) ∧
    (isRailTile grid gridSize sx sy = true →
      findPathOnRails grid gridSize sx sy sx sy = some [⟨sx, sy⟩]) := by
  refine ⟨?_, ?_, ?_, ?_, ?_, ?_, ?_, ?_⟩
  · intro p hp
    exact findPath_sound (fun x y => isRoadTile grid gridSize x y)
      gridSize sx sy gx gy p hp
  · intro hs hg hconn
    exact findPath_complete (fun x y => isRoadTile grid gridSize x y)
      gridSize (fun x y h => isRoadTile_bounds grid gridSize x y h)
      sx sy gx gy hs hg hconn
  · intro hnc
    exact findPath_none_of_not_connected
      (fun x y => isRoadTile grid gridSize x y) gridSize sx sy gx gy hnc
  · intro hs
    exact findPath_self (fun x y => isRoadTile grid gridSize x y)
      gridSize sx sy hs
  · intro p hp
    exact findPath_sound (fun x y => isRailTile grid gridSize x y)
      gridSize sx sy gx gy p hp
  · intro hs hg hconn
    exact findPath_complete (fun x y => isRailTile grid gridSize x y)
      gridSize (fun x y h => isRailTile_bounds grid gridSize x y h)
      sx sy gx gy hs hg hconn
  · intro hnc
    exact findPath_none_of_not_connected
      (fun x y => isRailTile grid gridSize x y) gridSize sx sy gx gy hnc
  · intro hs
    exact findPath_self (fun x y => isRailTile grid gridSize x y)
      gridSize sx sy hs

/-- Witness for the pathfinder contract: the plus grid's west road arm
is connected to its east road arm, and a path is indeed returned. -/
theorem findPath_road_rail_spec_witness :
    isRoadTile plusGrid 3 0 1 = true ∧ isRoadTile plusGrid 3 2 1 = true ∧
    Relation.ReflTransGen (stepPass fun x y => isRoadTile plusGrid 3 x y)
      ⟨0, 1⟩ ⟨2, 1⟩ ∧
    ∃ p, findPathOnRoads plusGrid 3 0 1 2 1 = some p := by
  have h1 : isRoadTile plusGrid 3 0 1 = true := by decide
  have h2 : isRoadTile plusGrid 3 2 1 = true := by decide
  have hstep1 : stepPass (fun x y => isRoadTile plusGrid 3 x y)
      ⟨0, 1⟩ ⟨1, 1⟩ := ⟨by decide, by decide⟩
  have hstep2 : stepPass (fun x y => isRoadTile plusGrid 3 x y)
      ⟨1, 1⟩ ⟨2, 1⟩ := ⟨by decide, by decide⟩
  have hconn := Relation.ReflTransGen.head hstep1
    (Relation.ReflTransGen.head hstep2 Relation.ReflTransGen.refl)
  exact ⟨h1, h2, hconn,
    (findPath_road_rail_spec plusGrid 3 0 1 2 1).2.1 h1 h2 hconn⟩

/-- C3 (amended): age-based removal is strict for cars and non-strict
for part_006 trains: a car whose aged value strictly exceeds `maxAge`
is removed by the update that ages it, while a train is removed as soon
as its aged value reaches `maxAge`.  (At car age exactly equal to
`maxAge` the car survives, see the counterexample.) -/
theorem age_removal_strict (grid : Grid) (gridSize : Nat) (rnd : Nat → ℚ)
    (k : Nat) (q speedMultiplier delta : ℚ) (c0 : Car) (t0 : TrainP6)
    (hc : c0.age + delta > c0.maxAge) (ht : t0.age + delta ≥ t0.maxAge) :
    updateCarStep grid gridSize rnd k speedMultiplier delta c0 =
      (none, k) ∧
    updateTrainP6 grid gridSize q delta t0 = none :=
  ⟨updateCarStep_age_removed grid gridSize rnd k speedMultiplier delta c0
      hc,
   updateTrainP6_age_removed grid gridSize q delta t0 ht⟩

/-- A demonstration part_006 train with `maxAge = 3`. -/
def demoTrain : TrainP6 :=
  { id := 0, tileX := 0, tileY := 0, direction := .south, progress := 0,
    speed := 1, age := 0, maxAge := 3, ttype := "freight", carriages := 3,
    color := "#fff", trackOffset := 0 }

/-- Witness for strict age removal at a concrete car and train. -/
theorem age_removal_strict_witness :
    demoCar.age + 3 > demoCar.maxAge ∧
    demoTrain.age + 3 ≥ demoTrain.maxAge ∧
    (updateCarStep grid1 1 rnd0 0 1 3 demoCar = (none, 0) ∧
     updateTrainP6 grid1 1 0 3 demoTrain = none) := by
  have hc : demoCar.age + 3 > demoCar.maxAge := by norm_num [demoCar]
  have ht : demoTrain.age + 3 ≥ demoTrain.maxAge := by norm_num [demoTrain]
  exact ⟨hc, ht,
    age_removal_strict grid1 1 rnd0 0 0 1 3 demoCar demoTrain hc ht⟩

/-- C5: at every cell-boundary branch decision, neither a part_006
train nor a car chooses the exact opposite of its incoming direction
unless that reversal is the only surface option at the decision tile
(a dead end). -/
theorem no_reversal_except_dead_end (grid : Grid) (gridSize : Nat) :
    (∀ (q deltaTime : ℚ) (t0 t' : TrainP6),
      updateTrainP6 grid gridSize q deltaTime t0 = some t' →
      t'.direction = getOppositeDirection t0.direction →
      getRailDirectionOptions grid gridSize t'.tileX t'.tileY =
        [getOppositeDirection t0.direction]) ∧
    (∀ (q : ℚ) (current : CarDirection) (x y : Int) (d : CarDirection),
      pickNextDirection q current grid gridSize x y = some d →
      d = getOppositeDirection current →
      getDirectionOptions grid gridSize x y = [d]) :=
  ⟨fun q dt t0 t' hu hrev =>
    updateTrainP6_no_reversal grid gridSize q dt t0 t' hu hrev,
   fun q cur x y d h hrev =>
    pickNextDirection_no_reversal q cur grid gridSize x y d h hrev⟩

/-- A 1×2 road strip. -/
def roadGrid2 : Grid := [[roadB, roadB]]

/-- Witness for the no-reversal theorem: at the dead end of a 1×2 road
strip the chooser does return the reversal, and the road options there
are exactly that reversal. -/
theorem no_reversal_except_dead_end_witness :
    pickNextDirection 0 .south roadGrid2 2 1 0 = some .north ∧
    CarDirection.north = getOppositeDirection .south ∧
    getDirectionOptions roadGrid2 2 1 0 = [.north] := by
  have h1 : pickNextDirection 0 .south roadGrid2 2 1 0 = some .north := by
    decide
  exact ⟨h1, by decide,
    (no_reversal_except_dead_end roadGrid2 2).2 0 .south 1 0 .north h1
      (by decide)⟩

/-- C4 (amended): after an update with genuine random draws and a
bounded frame delta, every live pedestrian's progress is in `[0, 1)`
unconditionally, and every live car's progress is in `[0, 1)` provided
each car's advance required at most the guarded four boundary
crossings — beyond that the car system's crossing loop gives up and
the overshoot survives the update (see the counterexample). -/
theorem progress_unit_interval (rnd : Nat → ℚ) (gridOpt : Option Grid)
    (gridSize : Nat) (speed : Nat) (delta : ℚ) (st : CarState)
    (zoom minZoom : ℚ) (gridVersion : Int) (isMobile : Bool)
    (pst : PedState)
    (hr : ∀ i, 0 ≤ rnd i ∧ rnd i < 1) (hd0 : 0 ≤ delta) (hd2 : delta ≤ 2)
    (hcars : ∀ c ∈ st.cars, 0 ≤ c.progress ∧ 0 ≤ c.speed ∧
      c.progress + c.speed * delta * carSpeedMultiplier speed < 5)
    (hpeds : ∀ p ∈ pst.peds, 0 ≤ p.progress ∧ 0 ≤ p.speed) :
    (∀ c ∈ (updateCars rnd gridOpt gridSize speed delta st).cars,
      0 ≤ c.progress ∧ c.progress < 1) ∧
    (∀ p ∈ (updatePedestrians rnd gridOpt gridSize speed zoom minZoom
        gridVersion isMobile delta pst).peds,
      0 ≤ p.progress ∧ p.progress < 1) :=
  ⟨updateCars_progress rnd gridOpt gridSize speed delta st hr hd0 hd2
      hcars,
   updatePedestrians_progress rnd gridOpt gridSize speed zoom minZoom
      gridVersion isMobile delta pst hr hd0 hpeds⟩

/-- Witness for the progress interval theorem at a concrete car state
and an empty pedestrian state. -/
theorem progress_unit_interval_witness :
    (∀ i, 0 ≤ rnd0 i ∧ rnd0 i < 1) ∧ (0 : ℚ) ≤ 1 ∧ (1 : ℚ) ≤ 2 ∧
    (∀ c ∈ (⟨[demoCar], 1, 5⟩ : CarState).cars, 0 ≤ c.progress ∧
      0 ≤ c.speed ∧
      c.progress + c.speed * 1 * carSpeedMultiplier 1 < 5) ∧
    (∀ p ∈ (⟨[], 0, 5, ⟨0, 0⟩⟩ : PedState).peds,
      0 ≤ p.progress ∧ 0 ≤ p.speed) ∧
    ((∀ c ∈ (updateCars rnd0 (some grid1) 1 1 1 ⟨[demoCar], 1, 5⟩).cars,
        0 ≤ c.progress ∧ c.progress < 1) ∧
     (∀ p ∈ (updatePedestrians rnd0 (some grid1) 1 1 1 0 0 false 1
         ⟨[], 0, 5, ⟨0, 0⟩⟩).peds, 0 ≤ p.progress ∧ p.progress < 1)) := by
  have hr : ∀ i, 0 ≤ rnd0 i ∧ rnd0 i < 1 := fun i => by norm_num [rnd0]
  have hcars : ∀ c ∈ (⟨[demoCar], 1, 5⟩ : CarState).cars,
      0 ≤ c.progress ∧ 0 ≤ c.speed ∧
      c.progress + c.speed * 1 * carSpeedMultiplier 1 < 5 := by
    intro c hc
    simp at hc
    subst hc
    norm_num [demoCar, carSpeedMultiplier]
  have hpeds : ∀ p ∈ (⟨[], 0, 5, ⟨0, 0⟩⟩ : PedState).peds,
      0 ≤ p.progress ∧ 0 ≤ p.speed := by
    intro p hp
    simp at hp
  exact ⟨hr, by norm_num, by norm_num, hcars, hpeds,
    progress_unit_interval rnd0 (some grid1) 1 1 1 ⟨[demoCar], 1, 5⟩ 1 0 0
      false ⟨[], 0, 5, ⟨0, 0⟩⟩ hr (by norm_num) (by norm_num) hcars hpeds⟩

/-- C7 (amended): a car, and likewise a pedestrian, standing on a tile
that is no longer road is always culled by its update — nothing
relocates it (see the counterexample, where a road tile sits one cell
away) — while a part_006 train standing off-rail is either relocated
to a rail tile inside the 5×5 scan neighbourhood or removed, removal
happening only through ageing out or when no rail exists in that
neighbourhood. -/
theorem stranded_relocate_or_cull (grid : Grid) (gridSize : Nat) :
    (∀ (rnd : Nat → ℚ) (k : Nat) (speedMultiplier delta : ℚ) (c0 : Car),
      isRoadTile grid gridSize c0.tileX c0.tileY = false →
      updateCarStep grid gridSize rnd k speedMultiplier delta c0 =
        (none, k)) ∧
    (∀ (speedMultiplier delta : ℚ) (p0 : Pedestrian),
      isRoadTile grid gridSize p0.tileX p0.tileY = false →
      updatePedStep grid gridSize speedMultiplier delta p0 = none) ∧
    (∀ (q delta : ℚ) (t0 : TrainP6),
      isRailTile grid gridSize t0.tileX t0.tileY = false →
      (∃ t', updateTrainP6 grid gridSize q delta t0 = some t' ∧
          isRailTile grid gridSize t'.tileX t'.tileY = true ∧
          (t'.tileX - t0.tileX).natAbs ≤ 2 ∧
          (t'.tileY - t0.tileY).natAbs ≤ 2) ∨
      (updateTrainP6 grid gridSize q delta t0 = none ∧
        (t0.age + delta ≥ t0.maxAge ∨
          ∀ dx dy : Int, dx.natAbs ≤ 2 → dy.natAbs ≤ 2 →
            isRailTile grid gridSize (t0.tileX + dx) (t0.tileY + dy) =
              false))) :=
  ⟨fun rnd k sm delta c0 hoff =>
    updateCarStep_offRoad grid gridSize rnd k sm delta c0 hoff,
   fun sm delta p0 hoff =>
    updatePedStep_offRoad grid gridSize sm delta p0 hoff,
   fun q delta t0 hoff =>
    updateTrainP6_stranded grid gridSize q delta t0 hoff⟩

/-- A part_006 train stranded on the grass tile of `strandedGrid`. -/
def strandedTrain : TrainP6 :=
  { id := 0, tileX := 0, tileY := 0, direction := .south, progress := 0,
    speed := 1, age := 0, maxAge := 9, ttype := "freight", carriages := 3,
    color := "#fff", trackOffset := 0 }

/-- A pedestrian stranded on the grass tile of `strandedGrid`. -/
def strandedPed : Pedestrian :=
  { id := 0, tileX := 0, tileY := 0, direction := .south, progress := 0,
    speed := 1, pathIndex := 0, age := 0, maxAge := 9, skinColor := "",
    shirtColor := "", walkOffset := 0, sidewalkLeft := true,
    destType := "park", homeX := 0, homeY := 0, destX := 1, destY := 0,
    returningHome := false, path := [⟨0, 0⟩] }

/-- Witness for repair-or-cull at a concrete off-road car, a concrete
off-road pedestrian and a concrete off-rail train. -/
theorem stranded_relocate_or_cull_witness :
    isRoadTile strandedGrid 2 strandedCar.tileX strandedCar.tileY =
      false ∧
    updateCarStep strandedGrid 2 rnd0 0 0 1 strandedCar = (none, 0) ∧
    isRoadTile strandedGrid 2 strandedPed.tileX strandedPed.tileY =
      false ∧
    updatePedStep strandedGrid 2 0 1 strandedPed = none ∧
    isRailTile strandedGrid 2 strandedTrain.tileX strandedTrain.tileY =
      false ∧
    ((∃ t', updateTrainP6 strandedGrid 2 0 1 strandedTrain = some t' ∧
        isRailTile strandedGrid 2 t'.tileX t'.tileY = true ∧
        (t'.tileX - strandedTrain.tileX).natAbs ≤ 2 ∧
        (t'.tileY - strandedTrain.tileY).natAbs ≤ 2) ∨
     (updateTrainP6 strandedGrid 2 0 1 strandedTrain = none ∧
       (strandedTrain.age + 1 ≥ strandedTrain.maxAge ∨
         ∀ dx dy : Int, dx.natAbs ≤ 2 → dy.natAbs ≤ 2 →
           isRailTile strandedGrid 2 (strandedTrain.tileX + dx)
             (strandedTrain.tileY + dy) = false))) := by
  have hc : isRoadTile strandedGrid 2 strandedCar.tileX
      strandedCar.tileY = false := by decide
  have hp : isRoadTile strandedGrid 2 strandedPed.tileX
      strandedPed.tileY = false := by decide
  have ht : isRailTile strandedGrid 2 strandedTrain.tileX
      strandedTrain.tileY = false := by decide
  exact ⟨hc,
    (stranded_relocate_or_cull strandedGrid 2).1 rnd0 0 0 1 strandedCar hc,
    hp,
    (stranded_relocate_or_cull strandedGrid 2).2.1 0 1 strandedPed hp,
    ht,
    (stranded_relocate_or_cull strandedGrid 2).2.2 0 1 strandedTrain ht⟩

/-- C8 (amended): with an absent grid or zero grid size the car,
station-train and pedestrian managers clear their live sets without
erroring, but the airplane manager returns with its set untouched
(see the counterexample). -/
theorem empty_grid_nothing_to_do (rnd : Nat → ℚ) (grid : Grid)
    (gridSize : Nat) (speed : Nat) (delta : ℚ) (st : CarState)
    (zoom minZoom : ℚ) (gridVersion : Int) (isMobile : Bool)
    (pst : PedState) (restT : List TrainTS → List TrainTS)
    (trains : List TrainTS) (restA : List Airplane → List Airplane)
    (planes : List Airplane) :
    updateCars rnd none gridSize speed delta st = { st with cars := [] } ∧
    updateCars rnd (some grid) 0 speed delta st =
      { st with cars := [] } ∧
    updateTrainsTS none gridSize zoom minZoom restT trains = [] ∧
    updateTrainsTS (some grid) 0 zoom minZoom restT trains = [] ∧
    updatePedestrians rnd none gridSize speed zoom minZoom gridVersion
      isMobile delta pst = { pst with peds := [] } ∧
    updatePedestrians rnd (some grid) 0 speed zoom minZoom gridVersion
      isMobile delta pst = { pst with peds := [] } ∧
    updateAirplanes none gridSize speed restA planes = planes ∧
    updateAirplanes (some grid) 0 speed restA planes = planes := by
  refine ⟨rfl, rfl, ?_, ?_, ?_, ?_, ?_, ?_⟩
  · simp only [updateTrainsTS]
    split <;> rfl
  · simp only [updateTrainsTS]
    split <;> rfl
  · simp only [updatePedestrians]
    split <;> rfl
  · simp only [updatePedestrians]
    split <;> rfl
  · simp [updateAirplanes]
  · simp [updateAirplanes]

/-- C9 (amended): the pedestrian road-tile count and the airplane
population total are memoized by grid version — a version hit returns
the cached value and a miss recomputes from the current grid and
refreshes the cache — but the part_006 train spawn gate's rail count
takes the value 0 on a miss instead of recomputing (see the
counterexample). -/
theorem caches_keyed_by_gridVersion (grid : Grid) (gridSize : Nat)
    (v : Int) (cache : CountCache) :
    (cache.gridVersion = v →
      getRoadTileCountP8 grid gridSize v cache = (cache.count, cache) ∧
      getPopulation grid gridSize v cache = (cache.count, cache) ∧
      railCountFromCacheP6 cache v = cache.count) ∧
    (cache.gridVersion ≠ v →
      getRoadTileCountP8 grid gridSize v cache =
        (countRoadTiles grid gridSize,
          ⟨countRoadTiles grid gridSize, v⟩) ∧
      getPopulation grid gridSize v cache =
        (totalPopulation grid gridSize,
          ⟨totalPopulation grid gridSize, v⟩) ∧
      railCountFromCacheP6 cache v = 0) := by
  constructor
  · intro h
    refine ⟨?_, ?_, ?_⟩ <;>
      simp [getRoadTileCountP8, getPopulation, railCountFromCacheP6, h]
  · intro h
    refine ⟨?_, ?_, ?_⟩ <;>
      simp [getRoadTileCountP8, getPopulation, railCountFromCacheP6, h]

/-- Witness for the cache theorem at a concrete hit and a concrete
miss. -/
theorem caches_keyed_by_gridVersion_witness :
    ((⟨7, 0⟩ : CountCache).gridVersion = 0 ∧
      getRoadTileCountP8 grid1 1 0 ⟨7, 0⟩ = (7, ⟨7, 0⟩) ∧
      getPopulation grid1 1 0 ⟨7, 0⟩ = (7, ⟨7, 0⟩) ∧
      railCountFromCacheP6 ⟨7, 0⟩ 0 = 7) ∧
    ((⟨7, 0⟩ : CountCache).gridVersion ≠ 1 ∧
      getRoadTileCountP8 grid1 1 1 ⟨7, 0⟩ =
        (countRoadTiles grid1 1, ⟨countRoadTiles grid1 1, 1⟩) ∧
      getPopulation grid1 1 1 ⟨7, 0⟩ =
        (totalPopulation grid1 1, ⟨totalPopulation grid1 1, 1⟩) ∧
      railCountFromCacheP6 ⟨7, 0⟩ 1 = 0) := by
  have h0 : (⟨7, 0⟩ : CountCache).gridVersion = 0 := rfl
  have h1 : (⟨7, 0⟩ : CountCache).gridVersion ≠ 1 := by decide
  exact ⟨⟨h0, (caches_keyed_by_gridVersion grid1 1 0 ⟨7, 0⟩).1 h0⟩,
    ⟨h1, (caches_keyed_by_gridVersion grid1 1 1 ⟨7, 0⟩).2 h1⟩⟩

/-- C10: when the global speed is 0 (paused), `updateCars` leaves every
surviving car's tile, progress and direction unchanged, while ages
still increase by the frame delta, over-age cars are still removed,
the spawn timer still counts down, and the spawn phase (including any
new car) still runs exactly as when unpaused. -/
theorem paused_cars_still_age_and_spawn (rnd : Nat → ℚ) (grid : Grid)
    (gridSize : Nat) (delta : ℚ) (st : CarState) (hn : gridSize ≠ 0)
    (hr : ∀ i, 0 ≤ rnd i ∧ rnd i < 1)
    (hcars : ∀ c ∈ st.cars, c.progress < 1) :
    (updateCars rnd (some grid) gridSize 0 delta st).cars =
      (carSpawnPhase rnd grid gridSize delta st).1.filterMap
        (pausedCarOutcome grid gridSize delta) ∧
    (∀ c2 ∈ (updateCars rnd (some grid) gridSize 0 delta st).cars,
      ∃ c ∈ (carSpawnPhase rnd grid gridSize delta st).1,
        c2.tileX = c.tileX ∧ c2.tileY = c.tileY ∧
        c2.progress = c.progress ∧ c2.direction = c.direction ∧
        c2.age = c.age + delta) ∧
    (updateCars rnd (some grid) gridSize 0 delta st).nextId =
      (carSpawnPhase rnd grid gridSize delta st).2.1 ∧
    (updateCars rnd (some grid) gridSize 0 delta st).spawnTimer =
      (carSpawnPhase rnd grid gridSize delta st).2.2.1 := by
  have h := updateCars_paused rnd grid gridSize delta st hn hr hcars
  refine ⟨by rw [h], ?_, by rw [h], by rw [h]⟩
  intro c2 hc2
  rw [h] at hc2
  obtain ⟨c, hcm, hout⟩ := List.mem_filterMap.mp hc2
  refine ⟨c, hcm, ?_⟩
  simp only [pausedCarOutcome] at hout
  by_cases hage : c.age + delta > c.maxAge
  · rw [if_pos hage] at hout
    exact absurd hout (by simp)
  · rw [if_neg hage] at hout
    by_cases hroad : isRoadTile grid gridSize c.tileX c.tileY = true
    · rw [if_neg (by simp [hroad])] at hout
      have h2 := Option.some.inj hout
      subst h2
      exact ⟨rfl, rfl, rfl, rfl, rfl⟩
    · rw [if_pos (by simpa using hroad)] at hout
      exact absurd hout (by simp)

/-- Witness for the paused-frame theorem at a concrete paused update. -/
theorem paused_cars_still_age_and_spawn_witness :
    (1 : Nat) ≠ 0 ∧ (∀ i, 0 ≤ rnd0 i ∧ rnd0 i < 1) ∧
    (∀ c ∈ (⟨[demoCar], 1, 5⟩ : CarState).cars, c.progress < 1) ∧
    ((updateCars rnd0 (some grid1) 1 0 1 ⟨[demoCar], 1, 5⟩).cars =
      (carSpawnPhase rnd0 grid1 1 1 ⟨[demoCar], 1, 5⟩).1.filterMap
        (pausedCarOutcome grid1 1 1) ∧
     (∀ c2 ∈ (updateCars rnd0 (some grid1) 1 0 1 ⟨[demoCar], 1, 5⟩).cars,
       ∃ c ∈ (carSpawnPhase rnd0 grid1 1 1 ⟨[demoCar], 1, 5⟩).1,
         c2.tileX = c.tileX ∧ c2.tileY = c.tileY ∧
         c2.progress = c.progress ∧ c2.direction = c.direction ∧
         c2.age = c.age + 1) ∧
     (updateCars rnd0 (some grid1) 1 0 1 ⟨[demoCar], 1, 5⟩).nextId =
       (carSpawnPhase rnd0 grid1 1 1 ⟨[demoCar], 1, 5⟩).2.1 ∧
     (updateCars rnd0 (some grid1) 1 0 1 ⟨[demoCar], 1, 5⟩).spawnTimer =
       (carSpawnPhase rnd0 grid1 1 1 ⟨[demoCar], 1, 5⟩).2.2.1) := by
  have hn : (1 : Nat) ≠ 0 := by norm_num
  have hr : ∀ i, 0 ≤ rnd0 i ∧ rnd0 i < 1 := fun i => by norm_num [rnd0]
  have hcars : ∀ c ∈ (⟨[demoCar], 1, 5⟩ : CarState).cars,
      c.progress < 1 := by
    intro c hc
    simp at hc
    subst hc
    norm_num [demoCar]
  exact ⟨hn, hr, hcars,
    paused_cars_still_age_and_spawn rnd0 grid1 1 1 ⟨[demoCar], 1, 5⟩ hn hr
      hcars⟩

end IsoCity

